import Mathlib

/-!
# pbnj: renderer bookkeeping, image emission and configuration defaults

A shallow embedding of `src/src/Renderer.cpp` and `src/src/Configuration.cpp`.

* The C++ object `Renderer` becomes the record `Renderer`; every call into the
  external rendering engine (`osp...`) is appended to a trace, so that
  "a handle is released / created / committed" is a statement about the trace.
* Machine integers are natural numbers or integers.  In `renderToBuffer` and
  `saveAsPPM` the sizes and indices are the `int`s of the source: every `int`
  operation is checked against the range of `int`, and every access to the
  framebuffer, the output buffer and the row buffer against the bounds of its
  block.  An overflow or an access outside a block is undefined behaviour,
  and the function then has no result (`none`).  `malloc` of a negative size
  yields the null pointer; every other `malloc`, and `fopen`, are taken to
  succeed.
* `float` and `double` values inside the pixel loops are rationals rounded to
  the nearest representable value (ties to even) after every operation: each
  operation is evaluated in the type C++ gives it, without fused
  multiply-add.  The values there are non-negative and finite, so neither a
  NaN nor the sign of zero arises.
* `float`s that only pass through the program (isovalues, the specular
  weight, the camera's view direction, configuration values) are `F32`:
  finite, infinite or NaN, compared with the C++ `==`.
* The JSON accessors are those of rapidjson with assertions enabled: a failed
  assertion ends the constructor without a `Configuration`.
-/

namespace pbnj

/-! ## Machine data -/

/-- An `unsigned char`. -/
abbrev UChar := Fin 256

/-- A handle of the external engine (`OSPRenderer`, `OSPWorld`, ...). -/
abbrev Handle := Nat

/-- The null handle. -/
def NULL : Handle := 0

/-- Round to the nearest integer, ties to the even one. -/
def roundHalfEven (q : ℚ) : ℤ :=
  let f := ⌊q⌋
  if q - f < 1 / 2 then f
  else if 1 / 2 < q - f then f + 1
  else if f % 2 = 0 then f else f + 1

/-- Round a rational to the nearest binary floating-point value with `p`
significant bits and least normal exponent `emin` (round to nearest, ties to
even, gradual underflow; no overflow to infinity). -/
def roundBinary (p : ℕ) (emin : ℤ) (q : ℚ) : ℚ :=
  if q = 0 then 0
  else
    let e : ℤ := max (Int.log 2 |q|) emin
    let ulp : ℚ := (2 : ℚ) ^ (e - ((p : ℤ) - 1))
    (roundHalfEven (q / ulp) : ℚ) * ulp

/-- Rounding to IEEE binary32 (`float`). -/
def roundF32 (q : ℚ) : ℚ := roundBinary 24 (-126) q

/-- Rounding to IEEE binary64 (`double`). -/
def roundF64 (q : ℚ) : ℚ := roundBinary 53 (-1022) q

/-- The largest finite `float`. -/
def FLT_MAX : ℚ := (2 ^ 24 - 1) * 2 ^ 104

/-- A `float` that the program stores, compares or hands to the engine:
a finite value, an infinity, or a NaN (the sign of zero is not tracked). -/
inductive F32 where
  | fin (q : ℚ)
  | inf (neg : Bool)
  | nan
  deriving DecidableEq

/-- The `float` nearest to a real value. -/
def F32.ofRat (q : ℚ) : F32 :=
  let r := roundF32 q
  if FLT_MAX < |r| then F32.inf (decide (r < 0)) else F32.fin r

/-- A `double` literal or value converted to `float`. -/
def F32.ofDouble (q : ℚ) : F32 := F32.ofRat (roundF64 q)

/-- The C++ `==` on `float`: a NaN is equal to nothing, itself included. -/
def F32.eq : F32 → F32 → Bool
  | F32.fin a, F32.fin b => decide (a = b)
  | F32.inf s, F32.inf t => decide (s = t)
  | _, _ => false

/-- The C++ `-` on `float`. -/
def F32.sub : F32 → F32 → F32
  | F32.fin a, F32.fin b => F32.ofRat (a - b)
  | F32.fin _, F32.inf t => F32.inf (!t)
  | F32.inf s, F32.fin _ => F32.inf s
  | F32.inf s, F32.inf t => if s = t then F32.nan else F32.inf s
  | _, _ => F32.nan

/-- The `operator==` of `std::vector<float>`: equal sizes and element-wise
`==`. -/
def vecEq : List F32 → List F32 → Bool
  | [], [] => true
  | a :: as, b :: bs => F32.eq a b && vecEq as bs
  | _, _ => false

/-! ## The external engine -/

/-- One call into the external rendering engine; a constructor call records
the handle it returned. -/
inductive OspCall where
  | newRenderer (type : String) (ret : Handle)
  | newVolumetricModel (volume : Handle) (ret : Handle)
  | newGeometricModel (geometry : Handle) (ret : Handle)
  | newGroup (ret : Handle)
  | newInstance (group : Handle) (ret : Handle)
  | newWorld (ret : Handle)
  | newLight (type : String) (ret : Handle)
  | newMaterial (type : String) (ret : Handle)
  | newGeometry (type : String) (ret : Handle)
  | newSharedObjects (items : List Handle) (type : String) (ret : Handle)
  | newSharedFloats (items : List F32) (ret : Handle)
  | newFrameBuffer (width height : Int) (ret : Handle)
  | setVec4f (obj : Handle) (id : String) (x y z w : F32)
  | setVec3f (obj : Handle) (id : String) (x y z : F32)
  | setFloat (obj : Handle) (id : String) (x : F32)
  | setInt (obj : Handle) (id : String) (x : Int)
  | setObject (obj : Handle) (id : String) (other : Handle)
  | commit (obj : Handle)
  | release (obj : Handle)
  | renderFrame (fb renderer camera world : Handle)
  | mapFrameBuffer (fb : Handle)
  | unmapFrameBuffer (fb : Handle)
  deriving DecidableEq

/-- What the program cannot decide about its environment: the handle the
engine returns from its `n`-th constructor call, the bytes
`ospMapFrameBuffer` exposes for a framebuffer, and the indeterminate contents
of freshly `malloc`ed memory. -/
structure Engine where
  alloc : Nat → Handle
  frame : Handle → List UChar
  heap : Nat → UChar

/-- A `pbnj::Volume` as the renderer sees it: its `ID` and the engine object
`asOSPRayObject()` returns. -/
structure Volume where
  ID : String
  oVolume : Handle
  deriving DecidableEq

/-- The `asOSPRayObject` method of `Volume`. -/
def Volume.asOSPRayObject (v : Volume) : Handle := v.oVolume

/-- A `pbnj::Camera` as the renderer sees it. -/
structure Camera where
  ID : String
  imageWidth : Int
  imageHeight : Int
  viewX : F32
  viewY : F32
  viewZ : F32
  oCamera : Handle
  deriving DecidableEq

/-- The `getImageWidth` method of `Camera`. -/
def Camera.getImageWidth (c : Camera) : Int := c.imageWidth

/-- The `getImageHeight` method of `Camera`. -/
def Camera.getImageHeight (c : Camera) : Int := c.imageHeight

/-- The `asOSPRayObject` method of `Camera`. -/
def Camera.asOSPRayObject (c : Camera) : Handle := c.oCamera

/-! ## The renderer -/

/-- The array `backgroundColor[4]`. -/
structure Color4 where
  c0 : UChar
  c1 : UChar
  c2 : UChar
  c3 : UChar
  deriving DecidableEq

/-- The member variables of `pbnj::Renderer`. -/
structure Renderer where
  backgroundColor : Color4
  samples : Nat
  oRenderer : Handle
  oCamera : Handle
  oModel : Handle
  oGroup : Handle
  oInstance : Handle
  oWorld : Handle
  oSurface : Handle
  oMaterial : Handle
  oFrameBuffer : Handle
  lights : List Handle
  lastVolumeID : String
  lastCameraID : String
  lastRenderType : String
  lastIsoValues : List F32
  cameraWidth : Int
  cameraHeight : Int
  lightDirection : F32 × F32 × F32
  pbnjCamera : Camera
  deriving DecidableEq

/-- The renderer object together with what it has done to its environment:
the trace of engine calls, the number of engine objects created so far, and
the lines written to `std::cerr`. -/
structure World where
  self : Renderer
  calls : List OspCall
  created : Nat
  cerr : List String
  deriving DecidableEq

/-- Update the member variables. -/
def World.upd (s : World) (f : Renderer → Renderer) : World :=
  { s with self := f s.self }

/-- Perform an engine call that returns nothing. -/
def World.osp (s : World) (c : OspCall) : World :=
  { s with calls := s.calls ++ [c] }

/-- Perform an engine constructor call; the handle is the one the engine
hands out for its next object. -/
def World.ospNew (E : Engine) (s : World) (mk : Handle → OspCall) : Handle × World :=
  let h := E.alloc s.created
  (h, { s with calls := s.calls ++ [mk h], created := s.created + 1 })

/-- Write a line to `std::cerr`. -/
def World.print (s : World) (line : String) : World :=
  { s with cerr := s.cerr ++ [line] }

/-- Read `unsigned int` as `int` (the conversion of `ospSetInt`'s argument). -/
def toInt32 (n : Nat) : Int :=
  if n % 2 ^ 32 < 2 ^ 31 then ((n % 2 ^ 32 : Nat) : Int) else ((n % 2 ^ 32 : Nat) : Int) - 2 ^ 32

/-- `Renderer::setBackgroundColor(unsigned char r, g, b, a)`. -/
def Renderer.setBackgroundColor (r g b a : UChar) (s : World) : World :=
  let s := s.upd fun self => { self with backgroundColor := ⟨r, g, b, a⟩ }
  let s := s.osp (OspCall.setVec4f s.self.oRenderer "bgColor"
    (F32.ofRat ((r.val : ℚ) / 255)) (F32.ofRat ((g.val : ℚ) / 255))
    (F32.ofRat ((b.val : ℚ) / 255)) (F32.ofRat ((a.val : ℚ) / 255)))
  s.osp (OspCall.commit s.self.oRenderer)

/-- `Renderer::setBackgroundColor(std::vector<unsigned char> bgColor)`.
An element access outside the vector yields `none`. -/
def Renderer.setBackgroundColorVec (bgColor : List UChar) (s : World) : Option World :=
  if bgColor.isEmpty || bgColor.length < 3 then
    some (Renderer.setBackgroundColor 0 0 0 0 s)
  else if bgColor.length = 3 then do
    let r ← bgColor[0]?
    let g ← bgColor[1]?
    let b ← bgColor[2]?
    some (Renderer.setBackgroundColor r g b 255 s)
  else do
    let r ← bgColor[0]?
    let g ← bgColor[1]?
    let b ← bgColor[2]?
    let a ← bgColor[3]?
    some (Renderer.setBackgroundColor r g b a s)

/-- The teardown block shared by `setVolume` and `setIsosurface`: release the
model, group, instance and world and null the four members. -/
def Renderer.releaseSceneGraph (s : World) : World :=
  let s := s.osp (OspCall.release s.self.oModel)
  let s := s.osp (OspCall.release s.self.oGroup)
  let s := s.osp (OspCall.release s.self.oInstance)
  let s := s.osp (OspCall.release s.self.oWorld)
  s.upd fun self =>
    { self with oModel := NULL, oGroup := NULL, oInstance := NULL, oWorld := NULL }

/-- The tail shared by `setVolume` and `setIsosurface`: commit the model, put
it in a new group, the group in a new instance, the instance in a new world.
`kind` is the element type of the model array and `slot` the group parameter
that receives it. -/
def Renderer.buildSceneGraph (E : Engine) (kind slot : String) (s : World) : World :=
  let s := s.osp (OspCall.commit s.self.oModel)
  let (g, s) := s.ospNew E OspCall.newGroup
  let s := s.upd fun self => { self with oGroup := g }
  let (d, s) := s.ospNew E (OspCall.newSharedObjects [s.self.oModel] kind)
  let s := s.osp (OspCall.setObject s.self.oGroup slot d)
  let s := s.osp (OspCall.commit s.self.oGroup)
  let (i, s) := s.ospNew E (OspCall.newInstance s.self.oGroup)
  let s := s.upd fun self => { self with oInstance := i }
  let s := s.osp (OspCall.commit s.self.oInstance)
  let (w, s) := s.ospNew E OspCall.newWorld
  let s := s.upd fun self => { self with oWorld := w }
  let (d, s) := s.ospNew E (OspCall.newSharedObjects [s.self.oInstance] "OSP_INSTANCE")
  let s := s.osp (OspCall.setObject s.self.oWorld "instance" d)
  s.osp (OspCall.commit s.self.oWorld)

/-- `Renderer::setVolume(Volume *v)`. -/
def Renderer.setVolume (E : Engine) (v : Volume) (s : World) : World :=
  if s.self.lastVolumeID = v.ID ∧ s.self.lastRenderType = "volume" then s
  else
    let s := if s.self.oWorld ≠ NULL then Renderer.releaseSceneGraph s else s
    let s := s.upd fun self => { self with lastVolumeID := v.ID, lastRenderType := "volume" }
    let (m, s) := s.ospNew E (OspCall.newVolumetricModel v.asOSPRayObject)
    let s := s.upd fun self => { self with oModel := m }
    Renderer.buildSceneGraph E "OSP_VOLUMETRIC_MODEL" "volume" s

/-- `Renderer::addLight()`. -/
def Renderer.addLight (E : Engine) (s : World) : World :=
  if s.self.lights.length = 0 then
    let (light, s) := s.ospNew E (OspCall.newLight "distant")
    let s := s.osp (OspCall.setFloat light "angularDiameter" (F32.ofDouble (53 / 100)))
    let s := s.osp (OspCall.commit light)
    s.upd fun self => { self with lights := self.lights ++ [light] }
  else s

/-- `Renderer::setIsosurface(Volume *v, std::vector<float> &isoValues,
float specular)`. -/
def Renderer.setIsosurface (E : Engine) (v : Volume) (isoValues : List F32) (specular : F32)
    (s : World) : World :=
  if s.self.lastVolumeID = v.ID ∧ s.self.lastRenderType = "isosurface"
      ∧ vecEq s.self.lastIsoValues isoValues = true then s
  else
    let s := if s.self.oWorld ≠ NULL then Renderer.releaseSceneGraph s else s
    let s := Renderer.addLight E s
    let s :=
      if s.self.oMaterial = NULL then
        let (m, s) := s.ospNew E (OspCall.newMaterial "OBJMaterial")
        let s := s.upd fun self => { self with oMaterial := m }
        let kd := F32.sub (F32.fin 1) specular
        let s := s.osp (OspCall.setVec3f s.self.oMaterial "Kd" kd kd kd)
        let s := s.osp (OspCall.setVec3f s.self.oMaterial "Ks" specular specular specular)
        let s := s.osp (OspCall.setFloat s.self.oMaterial "Ns" (F32.fin 10))
        s.osp (OspCall.commit s.self.oMaterial)
      else s
    let s :=
      if s.self.oSurface ≠ NULL then
        let s := s.osp (OspCall.release s.self.oSurface)
        s.upd fun self => { self with oSurface := NULL }
      else s
    let (g, s) := s.ospNew E (OspCall.newGeometry "isosurfaces")
    let s := s.upd fun self => { self with oSurface := g }
    let (d, s) := s.ospNew E (OspCall.newSharedFloats isoValues)
    let s := s.osp (OspCall.setObject s.self.oSurface "isovalues" d)
    let s := s.osp (OspCall.setObject s.self.oSurface "volume" v.asOSPRayObject)
    let s := s.osp (OspCall.setObject s.self.oSurface "material" s.self.oMaterial)
    let s := s.osp (OspCall.commit s.self.oSurface)
    let s := s.upd fun self =>
      { self with lastVolumeID := v.ID, lastRenderType := "isosurface",
                  lastIsoValues := isoValues }
    let (m, s) := s.ospNew E (OspCall.newGeometricModel s.self.oSurface)
    let s := s.upd fun self => { self with oModel := m }
    Renderer.buildSceneGraph E "OSP_GEOMETRIC_MODEL" "geometry" s

/-- `Renderer::setIsosurface(Volume *v, std::vector<float> &isoValues)`. -/
def Renderer.setIsosurfaceDefault (E : Engine) (v : Volume) (isoValues : List F32)
    (s : World) : World :=
  Renderer.setIsosurface E v isoValues (F32.ofDouble (1 / 10)) s

/-- `Renderer::setCamera(Camera *c)`. -/
def Renderer.setCamera (c : Camera) (s : World) : World :=
  if s.self.lastCameraID = c.ID then s
  else
    let s :=
      if s.self.oCamera ≠ NULL then
        let s := s.osp (OspCall.release s.self.oCamera)
        s.upd fun self => { self with oCamera := NULL }
      else s
    s.upd fun self =>
      { self with lastCameraID := c.ID,
                  cameraWidth := c.getImageWidth,
                  cameraHeight := c.getImageHeight,
                  lightDirection := (c.viewX, c.viewY, c.viewZ),
                  oCamera := c.asOSPRayObject,
                  pbnjCamera := c }

/-- `Renderer::setSamples(unsigned int spp)`. -/
def Renderer.setSamples (spp : Nat) (s : World) : World :=
  let s := s.upd fun self => { self with samples := spp }
  let s := s.osp (OspCall.setInt s.self.oRenderer "spp" (toInt32 spp))
  s.osp (OspCall.commit s.self.oRenderer)

/-- `Renderer::render()`. -/
def Renderer.render (E : Engine) (s : World) : World :=
  let exit := false
  let (s, exit) :=
    if s.self.oModel = NULL then (s.print "No volume set to render!", true) else (s, exit)
  let (s, exit) :=
    if s.self.oCamera = NULL then (s.print "No camera set to render with!", true) else (s, exit)
  if exit then s
  else
    let s :=
      if s.self.lights.length = 1 then
        let light := s.self.lights.headD NULL
        let s := s.osp (OspCall.setVec3f light "direction"
          s.self.lightDirection.1 s.self.lightDirection.2.1 s.self.lightDirection.2.2)
        let s := s.osp (OspCall.commit light)
        let (d, s) := s.ospNew E (OspCall.newSharedObjects s.self.lights "OSP_LIGHT")
        let s := s.osp (OspCall.commit d)
        let s := s.osp (OspCall.setObject s.self.oRenderer "lights" d)
        let aoSamples := max (s.self.samples / 8) 1
        let s := s.osp (OspCall.setInt s.self.oRenderer "aoSamples" (toInt32 aoSamples))
        let s := s.osp (OspCall.setInt s.self.oRenderer "shadowsEnabled" 0)
        s.osp (OspCall.setInt s.self.oRenderer "oneSidedLighting" 0)
      else s
    let s := s.osp (OspCall.setObject s.self.oRenderer "model" s.self.oModel)
    let s := s.osp (OspCall.setObject s.self.oRenderer "camera" s.self.oCamera)
    let s := s.osp (OspCall.commit s.self.oRenderer)
    let s := s.upd fun self =>
      { self with cameraWidth := self.pbnjCamera.getImageWidth,
                  cameraHeight := self.pbnjCamera.getImageHeight }
    let (fb, s) := s.ospNew E
      (OspCall.newFrameBuffer s.self.cameraWidth s.self.cameraHeight)
    let s := s.upd fun self => { self with oFrameBuffer := fb }
    s.osp (OspCall.renderFrame s.self.oFrameBuffer s.self.oRenderer s.self.oCamera
      s.self.oWorld)

/-- The constructor `Renderer::Renderer()`, run on an object whose members
still hold whatever `mem.self` held; `std::string` and `std::vector` members
start empty. -/
def Renderer.new (E : Engine) (mem : World) : World :=
  let s := mem.upd fun self =>
    { self with backgroundColor := ⟨0, 0, 0, 0⟩, samples := 1, lights := [],
                lastVolumeID := "", lastCameraID := "", lastRenderType := "",
                lastIsoValues := [] }
  let (r, s) := s.ospNew E (OspCall.newRenderer "scivis")
  let s := s.upd fun self => { self with oRenderer := r }
  let s := Renderer.setBackgroundColor 0 0 0 0 s
  s.upd fun self =>
    { self with oCamera := NULL, oModel := NULL, oWorld := NULL, oSurface := NULL,
                oMaterial := NULL, oInstance := NULL,
                lastVolumeID := "unset", lastCameraID := "unset" }

/-! ## Image file type -/

/-- The enumeration `IMAGETYPE`. -/
inductive IMAGETYPE where
  | INVALID
  | PIXMAP
  | PNG
  | JPG
  deriving DecidableEq

/-- A `std::stringstream` being read: the characters not yet extracted and
the two state bits that `getline` touches. -/
structure StringStream where
  buf : List Char
  eofbit : Bool
  failbit : Bool

/-- The extraction loop of `std::getline`: append characters to the token
until the delimiter (extracted, not appended) or the end of the stream.
Returns the token, the rest of the stream and whether the end was hit. -/
def extractLine (delim : Char) : List Char → List Char → List Char × List Char × Bool
  | [], acc => (acc, [], true)
  | c :: cs, acc =>
    if c = delim then (acc, cs, false) else extractLine delim cs (acc ++ [c])

/-- The library call `std::getline(ss, token, delim)`.  When the stream is
not `good()` the sentry fails: `failbit` is set and the token is left as it
was.  Otherwise the token is erased and refilled; `eofbit` is set when the end
is reached and `failbit` when no character at all was extracted. -/
def getline (ss : StringStream) (token : List Char) (delim : Char) :
    StringStream × List Char :=
  if ss.eofbit || ss.failbit then ({ ss with failbit := true }, token)
  else
    let (tok, rest, hitEof) := extractLine delim ss.buf []
    let extracted := ss.buf.length - rest.length
    ({ buf := rest, eofbit := hitEof, failbit := decide (extracted = 0) }, tok)

/-- The loop `while(std::getline(ss, token, delim)) {}` of `getFiletype`,
run for at most `fuel` calls of `getline`; `none` when the fuel runs out. -/
def getFiletypeLoop : Nat → StringStream → List Char → Option (List Char)
  | 0, _, _ => none
  | fuel + 1, ss, token =>
    let r := getline ss token '.'
    if r.1.failbit then some r.2 else getFiletypeLoop fuel r.1 r.2

/-- `Renderer::getFiletype(std::string filename)`. -/
def Renderer.getFiletype (filename : String) : Option IMAGETYPE :=
  (getFiletypeLoop (filename.length + 2) ⟨filename.toList, false, false⟩ []).map
    fun token =>
      if String.mk token = "ppm" then IMAGETYPE.PIXMAP
      else if String.mk token = "png" then IMAGETYPE.PNG
      else if String.mk token = "jpg" ∨ String.mk token = "jpeg" then IMAGETYPE.JPG
      else IMAGETYPE.INVALID

/-- The file extension in the words of the specification: the text after the
last `.` of the filename; the whole filename when it has no `.`; empty when
the filename is empty or ends in `.`. -/
def fileExtension (filename : String) : String :=
  String.mk (filename.toList.reverse.takeWhile fun c => c ≠ '.').reverse

/-! ## Machine integers and memory -/

/-- The least value of the 32-bit type `int`. -/
def INT_MIN : Int := -2147483648

/-- The greatest value of the 32-bit type `int`. -/
def INT_MAX : Int := 2147483647

/-- The integers that are values of `int`. -/
abbrev inInt (x : Int) : Prop := INT_MIN ≤ x ∧ x ≤ INT_MAX

/-- The result of an `int` operation whose exact value is `x`: `x` itself
when it is a value of `int`; otherwise the operation overflows, which is
undefined behaviour: `none`. -/
def cint (x : Int) : Option Int := if inInt x then some x else none

/-- The C function `malloc` called with the `int` `n`, which is converted to
`size_t`.  A negative `n` becomes a request for more than `2^63` bytes, which
yields the null pointer, `none`; any other request is taken to succeed and
yields `n` bytes of indeterminate content. -/
def malloc (E : Engine) (n : Int) : Option (List UChar) :=
  if n < 0 then none else some ((List.range n.toNat).map E.heap)

/-- The bytes that can be accessed through a pointer `malloc` returned: none
through the null pointer. -/
def block (p : Option (List UChar)) : List UChar := p.getD []

/-- Read the byte at offset `idx` of a block of memory; a read outside the
block is undefined behaviour: `none`. -/
def load (mem : List UChar) (idx : Int) : Option UChar :=
  if 0 ≤ idx then mem[idx.toNat]? else none

/-- Write the byte at offset `idx` of a block of memory; a write outside the
block is undefined behaviour: `none`. -/
def store (mem : List UChar) (idx : Int) (x : UChar) : Option (List UChar) :=
  if 0 ≤ idx ∧ idx < mem.length then some (mem.set idx.toNat x) else none

/-! ## Pixel compositing -/

/-- Conversion of a non-negative floating-point value to `unsigned char`:
the fraction is discarded. -/
def toUChar (q : ℚ) : UChar := Fin.ofNat ⌊q⌋₊

/-- The floating-point part of the body of the inner loop of
`renderToBuffer`: the four bytes written for an input pixel
`(p0, p1, p2, p3)`. -/
def compositePixel (bg : Color4) (p0 p1 p2 p3 : UChar) : UChar × UChar × UChar × UChar :=
  let a : ℚ := roundF32 (roundF64 ((p3.val : ℚ) / 255))
  let r : ℚ := roundF32 ((p0.val : ℚ) * a)
  let g : ℚ := roundF32 ((p1.val : ℚ) * a)
  let b : ℚ := roundF32 ((p2.val : ℚ) * a)
  let abg : ℚ := roundF32 (roundF64 ((bg.c3.val : ℚ) / 255))
  let rbg : ℚ := roundF32 ((bg.c0.val : ℚ) * abg)
  let gbg : ℚ := roundF32 ((bg.c1.val : ℚ) * abg)
  let bbg : ℚ := roundF32 ((bg.c2.val : ℚ) * abg)
  (toUChar (roundF32 (r + roundF32 (rbg * roundF32 (1 - a)))),
   toUChar (roundF32 (g + roundF32 (gbg * roundF32 (1 - a)))),
   toUChar (roundF32 (b + roundF32 (bbg * roundF32 (1 - a)))),
   toUChar (roundF32 (255 * roundF32 (a + roundF32 (abg * roundF32 (1 - a))))))

/-- The read `rowIn[4*i + k]` of the pixel loops.  `row` is the `int`
`(height-1-j)*width`, the index of the first pixel of the input row, and
`rowIn` points at that pixel, that is at byte `4 * row` of the mapped
framebuffer `colorBuffer`; the offset `4*i + k` is evaluated in `int`. -/
def rowByte (colorBuffer : List UChar) (row : Int) (i : Nat) (k : Int) : Option UChar := do
  let i4 ← cint (4 * (i : Int))
  let off ← cint (i4 + k)
  load colorBuffer (4 * row + off)

/-- The write `buffer[m*index + k] = v` of the pixel loops; the offset is
evaluated in `int`. -/
def putByte (buffer : List UChar) (m index k : Int) (v : UChar) : Option (List UChar) := do
  let x ← cint (m * index)
  let idx ← cint (x + k)
  store buffer idx v

/-- The body of the inner loop of `renderToBuffer` for output row `j` and
column `i`; `row` is as in `rowByte`. -/
def renderToBufferPixel (width : Int) (bg : Color4) (colorBuffer : List UChar) (row : Int)
    (j i : Nat) (buffer : List UChar) : Option (List UChar) := do
  let jw ← cint ((j : Int) * width)
  let index ← cint (jw + (i : Int))
  let p3 ← rowByte colorBuffer row i 3
  let p0 ← rowByte colorBuffer row i 0
  let p1 ← rowByte colorBuffer row i 1
  let p2 ← rowByte colorBuffer row i 2
  let out := compositePixel bg p0 p1 p2 p3
  let buffer ← putByte buffer 4 index 0 out.1
  let buffer ← putByte buffer 4 index 1 out.2.1
  let buffer ← putByte buffer 4 index 2 out.2.2.1
  putByte buffer 4 index 3 out.2.2.2

/-- The two nested loops of `renderToBuffer`, writing into `buffer`; the
loops run for `0 <= j < height` and `0 <= i < width`, so not at all for a
size that is not positive.  The difference `height-1-j` of such a `j` cannot
overflow; its product with `width` can. -/
def renderToBufferLoop (width height : Int) (bg : Color4) (colorBuffer : List UChar)
    (buffer : List UChar) : Option (List UChar) :=
  (List.range height.toNat).foldlM (fun buffer (j : Nat) => do
    let row ← cint ((height - 1 - (j : Int)) * width)
    (List.range width.toNat).foldlM
      (fun buffer i => renderToBufferPixel width bg colorBuffer row j i buffer) buffer) buffer

/-- The pointer `renderToBuffer` hands back for a mapped framebuffer
`colorBuffer` and the `int` sizes `width` and `height`: allocate
`4 * width * height` bytes and run the loops.  The outer `none` is undefined
behaviour, the inner one the null pointer. -/
def renderToBufferBytes (E : Engine) (width height : Int) (bg : Color4)
    (colorBuffer : List UChar) : Option (Option (List UChar)) := do
  let n4 ← cint (4 * width)
  let n ← cint (n4 * height)
  let p := malloc E n
  let bytes ← renderToBufferLoop width height bg colorBuffer (block p)
  some (p.map fun _ => bytes)

/-- `Renderer::renderToBuffer(unsigned char **buffer)`; the pointer stored
in `*buffer` is returned. -/
def Renderer.renderToBuffer (E : Engine) (s : World) :
    Option (World × Option (List UChar)) := do
  let s := Renderer.render E s
  let width := s.self.cameraWidth
  let height := s.self.cameraHeight
  let s := s.osp (OspCall.mapFrameBuffer s.self.oFrameBuffer)
  let colorBuffer := E.frame s.self.oFrameBuffer
  let buffer ← renderToBufferBytes E width height s.self.backgroundColor colorBuffer
  let s := s.osp (OspCall.unmapFrameBuffer s.self.oFrameBuffer)
  let s := s.osp (OspCall.release s.self.oFrameBuffer)
  some (s, buffer)

/-! ## PPM output -/

/-- The bytes of an ASCII string. -/
def strBytes (str : String) : List UChar := str.toList.map fun c => Fin.ofNat c.toNat

/-- The floating-point part of the body of the inner loop of `saveAsPPM`:
the three bytes written for an input pixel `(p0, p1, p2, p3)`.  The product
with `a` is a `float`, the background term and the sum are `double`s. -/
def ppmPixel (bg : Color4) (p0 p1 p2 p3 : UChar) : UChar × UChar × UChar :=
  let a : ℚ := roundF32 (roundF64 ((p3.val : ℚ) / 255))
  (toUChar (roundF64 (roundF32 ((p0.val : ℚ) * a) +
      roundF64 ((bg.c0.val : ℚ) * roundF64 (1 - a)))),
   toUChar (roundF64 (roundF32 ((p1.val : ℚ) * a) +
      roundF64 ((bg.c1.val : ℚ) * roundF64 (1 - a)))),
   toUChar (roundF64 (roundF32 ((p2.val : ℚ) * a) +
      roundF64 ((bg.c2.val : ℚ) * roundF64 (1 - a)))))

/-- The body of the inner loop of `saveAsPPM` for column `i`; `row` is as
in `rowByte`. -/
def saveAsPPMPixel (bg : Color4) (colorBuffer : List UChar) (row : Int) (i : Nat)
    (rowOut : List UChar) : Option (List UChar) := do
  let p0 ← rowByte colorBuffer row i 0
  let p1 ← rowByte colorBuffer row i 1
  let p2 ← rowByte colorBuffer row i 2
  let p3 ← rowByte colorBuffer row i 3
  let out := ppmPixel bg p0 p1 p2 p3
  let rowOut ← putByte rowOut 3 (i : Int) 0 out.1
  let rowOut ← putByte rowOut 3 (i : Int) 1 out.2.1
  putByte rowOut 3 (i : Int) 2 out.2.2

/-- The inner loop of `saveAsPPM` for output row `j`: fill `rowOut`. -/
def saveAsPPMRow (width height : Int) (bg : Color4) (colorBuffer : List UChar) (j : Nat)
    (rowOut : List UChar) : Option (List UChar) := do
  let row ← cint ((height - 1 - (j : Int)) * width)
  (List.range width.toNat).foldlM
    (fun rowOut i => saveAsPPMPixel bg colorBuffer row i rowOut) rowOut

/-- The call `fwrite(rowOut, 3*width, sizeof(char), file)`: one item of
`3*width` bytes is appended to the file.  The `int` size is converted to
`size_t`, so a negative size, like any size above that of `rowOut`, reads
outside the block. -/
def fwriteRow (width : Int) (rowOut file : List UChar) : Option (List UChar) := do
  let size ← cint (3 * width)
  if 0 ≤ size ∧ size ≤ (rowOut.length : Int) then some (file ++ rowOut.take size.toNat)
  else none

/-- The outer loop of `saveAsPPM`: each row is composed in the one `rowOut`
buffer and written to the file. -/
def saveAsPPMLoop (width height : Int) (bg : Color4) (colorBuffer : List UChar)
    (rowOut file : List UChar) : Option (List UChar × List UChar) :=
  (List.range height.toNat).foldlM (fun st (j : Nat) => do
    let rowOut ← saveAsPPMRow width height bg colorBuffer j st.1
    let file ← fwriteRow width rowOut st.2
    some (rowOut, file)) (rowOut, file)

/-- The header `fprintf(file, "P6\n%i %i\n255\n", width, height)` prints. -/
def ppmHeader (width height : Int) : String :=
  "P6\n" ++ toString width ++ " " ++ toString height ++ "\n255\n"

/-- Everything `saveAsPPM` writes to the file for a mapped framebuffer
`colorBuffer` and the `int` sizes `width` and `height`; `none` is undefined
behaviour. -/
def saveAsPPMBytes (E : Engine) (width height : Int) (bg : Color4)
    (colorBuffer : List UChar) : Option (List UChar) := do
  let n3 ← cint (3 * width)
  let rowOut := block (malloc E n3)
  let file := strBytes (ppmHeader width height)
  let st ← saveAsPPMLoop width height bg colorBuffer rowOut file
  some (st.2 ++ strBytes "\n")

/-- `Renderer::saveAsPPM(std::string filename)`; the contents written to the
file are returned. -/
def Renderer.saveAsPPM (E : Engine) (s : World) : Option (World × List UChar) := do
  let s := Renderer.render E s
  let width := s.self.cameraWidth
  let height := s.self.cameraHeight
  let s := s.osp (OspCall.mapFrameBuffer s.self.oFrameBuffer)
  let colorBuffer := E.frame s.self.oFrameBuffer
  let file ← saveAsPPMBytes E width height s.self.backgroundColor colorBuffer
  let s := s.osp (OspCall.unmapFrameBuffer s.self.oFrameBuffer)
  let s := s.osp (OspCall.release s.self.oFrameBuffer)
  some (s, file)

/-! ## Configuration -/

/-- A parsed JSON value (`rapidjson::Value`).  A number written as an integer
is `int`, any other number is `double`. -/
inductive JsonValue where
  | null
  | bool (b : Bool)
  | int (i : ℤ)
  | double (d : ℚ)
  | string (str : String)
  | array (elems : List JsonValue)
  | object (members : List (String × JsonValue))

/-- The accessor `HasMember(name)`; it asserts that the value is an object
(`none` is a failed assertion). -/
def JsonValue.HasMember (v : JsonValue) (name : String) : Option Bool :=
  match v with
  | JsonValue.object members => some (members.find? fun m => m.1 = name).isSome
  | _ => none

/-- The accessor `operator[](name)`: the first member of that name; it
asserts that the value is an object and has the member. -/
def JsonValue.member (v : JsonValue) (name : String) : Option JsonValue :=
  match v with
  | JsonValue.object members => (members.find? fun m => m.1 = name).map fun m => m.2
  | _ => none

/-- The accessor `operator[](index)`; it asserts that the value is an array
and the index is inside it. -/
def JsonValue.index (v : JsonValue) (i : Nat) : Option JsonValue :=
  match v with
  | JsonValue.array elems => elems[i]?
  | _ => none

/-- The accessor `Size()`; it asserts that the value is an array. -/
def JsonValue.Size (v : JsonValue) : Option Nat :=
  match v with
  | JsonValue.array elems => some elems.length
  | _ => none

/-- The accessor `GetString()`; it asserts that the value is a string. -/
def JsonValue.GetString (v : JsonValue) : Option String :=
  match v with
  | JsonValue.string str => some str
  | _ => none

/-- The accessor `GetInt()`; it asserts that the value is an integer that
fits `int`. -/
def JsonValue.GetInt (v : JsonValue) : Option Int :=
  match v with
  | JsonValue.int i => if -2 ^ 31 ≤ i ∧ i < 2 ^ 31 then some i else none
  | _ => none

/-- The accessor `GetUint()`; it asserts that the value is an integer that
fits `unsigned`. -/
def JsonValue.GetUint (v : JsonValue) : Option Nat :=
  match v with
  | JsonValue.int i => if 0 ≤ i ∧ i < 2 ^ 32 then some i.toNat else none
  | _ => none

/-- The accessor `GetFloat()`, which is `static_cast<float>(GetDouble())`; it
asserts that the value is a number. -/
def JsonValue.GetFloat (v : JsonValue) : Option F32 :=
  match v with
  | JsonValue.int i => some (F32.ofDouble i)
  | JsonValue.double d => some (F32.ofDouble d)
  | _ => none

/-- What `glob` leaves behind: its return value and the vector `gl_pathv`
(whose length is `gl_pathc`). -/
structure GlobResult where
  error : Nat
  gl_pathv : List String

/-- The constant `GLOB_NOSPACE` of `<glob.h>`. -/
def GLOB_NOSPACE : Nat := 1

/-- The constant `GLOB_ABORTED` of `<glob.h>`. -/
def GLOB_ABORTED : Nat := 2

/-- The constant `GLOB_NOMATCH` of `<glob.h>`. -/
def GLOB_NOMATCH : Nat := 3

/-- What the configuration reads from outside `Configuration.cpp`: the file
system through `glob`, and the colour tables of `TransferFunction.h`. -/
structure ConfigEnv where
  glob : String → GlobResult
  coolToWarm : List F32
  spectralReverse : List F32
  magma : List F32
  viridis : List F32

/-- The member variables of `pbnj::Configuration`. -/
structure Configuration where
  configFilename : String
  dataFilename : String
  globbedFilenames : List String
  dataVariable : String
  dataXDim : Int
  dataYDim : Int
  dataZDim : Int
  imageWidth : Int
  imageHeight : Int
  imageFilename : String
  colorMap : List F32
  opacityMap : List F32
  opacityAttenuation : F32
  samples : Nat
  cameraX : F32
  cameraY : F32
  cameraZ : F32
  cameraUpX : F32
  cameraUpY : F32
  cameraUpZ : F32

/-- The configuration under construction and the lines written to
`std::cerr`. -/
abbrev ConfigState := Configuration × List String

/-- `Configuration::selectColorMap(std::string userInput)`. -/
def Configuration.selectColorMap (env : ConfigEnv) (userInput : String) (st : ConfigState) :
    ConfigState :=
  if userInput = "coolToWarm" ∨ userInput = "cool to warm" then
    ({ st.1 with colorMap := env.coolToWarm }, st.2)
  else if userInput = "spectralReverse" ∨ userInput = "spectral reverse"
      ∨ userInput = "reverse spectral" then
    ({ st.1 with colorMap := env.spectralReverse }, st.2)
  else if userInput = "magma" then ({ st.1 with colorMap := env.magma }, st.2)
  else if userInput = "viridis" then ({ st.1 with colorMap := env.viridis }, st.2)
  else (st.1, st.2 ++ ["Unrecognized color map " ++ userInput ++ "!"])

/-- The constructor's block for `"filename"`. -/
def Configuration.readFilename (env : ConfigEnv) (json : JsonValue) (st : ConfigState) :
    Option ConfigState := do
  if !(← json.HasMember "filename") then
    some (st.1, st.2 ++ ["Data filename is required!"])
  else
    let fname ← (← json.member "filename").GetString
    let globResult := env.glob fname
    let globError := globResult.error
    if globError = GLOB_NOSPACE then
      some (st.1, st.2 ++ ["ERROR: Ran out of memory when globbing files withpattern " ++ fname])
    else if globError = GLOB_ABORTED then
      some (st.1, st.2 ++ ["ERROR: Read error when globbing files withpattern " ++ fname])
    else if globError = GLOB_NOMATCH then
      some (st.1, st.2 ++ ["ERROR: No matches found when globbing files withpattern " ++ fname])
    else if globResult.gl_pathv.length = 1 then
      some ({ st.1 with dataFilename := fname }, st.2)
    else
      some ({ st.1 with globbedFilenames := st.1.globbedFilenames ++ globResult.gl_pathv }, st.2)

/-- The constructor's block for `"dimensions"`. -/
def Configuration.readDimensions (json : JsonValue) (st : ConfigState) : Option ConfigState := do
  if !(← json.HasMember "dimensions") then
    some (st.1, st.2 ++ ["Data dimensions are required!"])
  else
    let dataDim ← json.member "dimensions"
    let x ← (← dataDim.index 0).GetInt
    let y ← (← dataDim.index 1).GetInt
    let z ← (← dataDim.index 2).GetInt
    some ({ st.1 with dataXDim := x, dataYDim := y, dataZDim := z }, st.2)

/-- The constructor's block for `"imageSize"`. -/
def Configuration.readImageSize (json : JsonValue) (st : ConfigState) : Option ConfigState := do
  if !(← json.HasMember "imageSize") then
    some (st.1, st.2 ++ ["Image dimensions are required!"])
  else
    let imageDim ← json.member "imageSize"
    let w ← (← imageDim.index 0).GetInt
    let h ← (← imageDim.index 1).GetInt
    some ({ st.1 with imageWidth := w, imageHeight := h }, st.2)

/-- The constructor's block for `"outputImageFilename"`. -/
def Configuration.readImageFilename (json : JsonValue) (st : ConfigState) :
    Option ConfigState := do
  if !(← json.HasMember "outputImageFilename") then
    some (st.1, st.2 ++ ["Image filename is required!"])
  else
    let name ← (← json.member "outputImageFilename").GetString
    some ({ st.1 with imageFilename := name }, st.2)

/-- The constructor's block for `"dataVariable"`. -/
def Configuration.readDataVariable (json : JsonValue) (st : ConfigState) :
    Option ConfigState := do
  if ← json.HasMember "dataVariable" then
    let name ← (← json.member "dataVariable").GetString
    some ({ st.1 with dataVariable := name }, st.2)
  else some st

/-- The constructor's block for `"colorMap"`. -/
def Configuration.readColorMap (env : ConfigEnv) (json : JsonValue) (st : ConfigState) :
    Option ConfigState := do
  if ← json.HasMember "colorMap" then
    let name ← (← json.member "colorMap").GetString
    some (Configuration.selectColorMap env name st)
  else some st

/-- The constructor's block for `"opacityMap"`: the loop pushes the entries
in order. -/
def Configuration.readOpacityMap (json : JsonValue) (st : ConfigState) : Option ConfigState := do
  if ← json.HasMember "opacityMap" then
    let omap ← json.member "opacityMap"
    let n ← omap.Size
    let vals ← (List.range n).mapM fun i => do (← omap.index i).GetFloat
    some ({ st.1 with opacityMap := st.1.opacityMap ++ vals }, st.2)
  else some st

/-- The constructor's block for `"opacityAttenuation"`. -/
def Configuration.readOpacityAttenuation (json : JsonValue) (st : ConfigState) :
    Option ConfigState := do
  if ← json.HasMember "opacityAttenuation" then
    let x ← (← json.member "opacityAttenuation").GetFloat
    some ({ st.1 with opacityAttenuation := x }, st.2)
  else some ({ st.1 with opacityAttenuation := F32.ofDouble 1 }, st.2)

/-- The constructor's block for `"samplesPerPixel"`. -/
def Configuration.readSamples (json : JsonValue) (st : ConfigState) : Option ConfigState := do
  if ← json.HasMember "samplesPerPixel" then
    let val ← (← json.member "samplesPerPixel").GetUint
    some ({ st.1 with samples := val }, st.2 ++ ["samples: " ++ toString val])
  else some ({ st.1 with samples := 4 }, st.2)

/-- The constructor's block for `"cameraPosition"`. -/
def Configuration.readCameraPosition (json : JsonValue) (st : ConfigState) :
    Option ConfigState := do
  if ← json.HasMember "cameraPosition" then
    let cameraPos ← json.member "cameraPosition"
    let x ← (← cameraPos.index 0).GetFloat
    let y ← (← cameraPos.index 1).GetFloat
    let z ← (← cameraPos.index 2).GetFloat
    some ({ st.1 with cameraX := x, cameraY := y, cameraZ := z }, st.2)
  else
    some ({ st.1 with cameraX := F32.ofDouble 0, cameraY := F32.ofDouble 0,
                      cameraZ := F32.ofDouble 0 }, st.2)

/-- The constructor's block for `"cameraUpVector"`. -/
def Configuration.readCameraUpVector (json : JsonValue) (st : ConfigState) :
    Option ConfigState := do
  if ← json.HasMember "cameraUpVector" then
    let cameraUpVector ← json.member "cameraUpVector"
    let x ← (← cameraUpVector.index 0).GetFloat
    let y ← (← cameraUpVector.index 1).GetFloat
    let z ← (← cameraUpVector.index 2).GetFloat
    some ({ st.1 with cameraUpX := x, cameraUpY := y, cameraUpZ := z }, st.2)
  else
    some ({ st.1 with cameraUpX := F32.ofDouble 0, cameraUpY := F32.ofDouble 1,
                      cameraUpZ := F32.ofDouble 0 }, st.2)

/-- The constructor `Configuration::Configuration(std::string filename)`,
given the document `json` that `parseConfigFile` produced.  The object starts
from `mem` with its strings and vectors empty; `none` is a failed accessor
assertion. -/
def Configuration.new (env : ConfigEnv) (mem : Configuration) (filename : String)
    (json : JsonValue) : Option ConfigState := do
  let c : Configuration :=
    { mem with configFilename := filename, dataFilename := "", globbedFilenames := [],
               dataVariable := "", imageFilename := "", colorMap := [], opacityMap := [] }
  let st ← Configuration.readFilename env json (c, [])
  let st ← Configuration.readDimensions json st
  let st ← Configuration.readImageSize json st
  let st ← Configuration.readImageFilename json st
  let st ← Configuration.readDataVariable json st
  let st ← Configuration.readColorMap env json st
  let st ← Configuration.readOpacityMap json st
  let st ← Configuration.readOpacityAttenuation json st
  let st ← Configuration.readSamples json st
  let st ← Configuration.readCameraPosition json st
  Configuration.readCameraUpVector json st

/-- The four release calls of the teardown block, for the handles a renderer
holds. -/
def Renderer.sceneGraphReleases (r : Renderer) : List OspCall :=
  [OspCall.release r.oModel, OspCall.release r.oGroup, OspCall.release r.oInstance,
   OspCall.release r.oWorld]

/-- Component `c` of the four bytes of a pixel. -/
def sel4 (t : UChar × UChar × UChar × UChar) (c : Nat) : UChar :=
  if c = 0 then t.1 else if c = 1 then t.2.1 else if c = 2 then t.2.2.1 else t.2.2.2

/-- Component `c` of the three bytes of a pixel. -/
def sel3 (t : UChar × UChar × UChar) (c : Nat) : UChar :=
  if c = 0 then t.1 else if c = 1 then t.2.1 else t.2.2

/-- The input pixel that output position `(j, i)` is computed from: pixel `i`
of framebuffer row `height - 1 - j`, as the loops read it. -/
def pixelIn (width height : Nat) (colorBuffer : List UChar) (j i : Nat) :
    UChar × UChar × UChar × UChar :=
  (colorBuffer.getD (4 * ((height - 1 - j) * width) + (4 * i + 0)) 0,
   colorBuffer.getD (4 * ((height - 1 - j) * width) + (4 * i + 1)) 0,
   colorBuffer.getD (4 * ((height - 1 - j) * width) + (4 * i + 2)) 0,
   colorBuffer.getD (4 * ((height - 1 - j) * width) + (4 * i + 3)) 0)

/-- The pixel data of the file `saveAsPPM` writes: what stands after the
header and before the final newline. -/
def ppmPixelBytes (E : Engine) (width height : Int) (bg : Color4) (colorBuffer : List UChar) :
    Option (List UChar) :=
  (saveAsPPMBytes E width height bg colorBuffer).map fun file =>
    (file.drop (strBytes (ppmHeader width height)).length).dropLast

/-- The value a three-float parameter of an engine object has after a trace
of calls: the arguments of the last `ospSetVec3f` on that object and
parameter name, if there was one.  A handle is taken to name one object
throughout the trace. -/
def paramVec3f (calls : List OspCall) (obj : Handle) (id : String) : Option (F32 × F32 × F32) :=
  calls.foldl (fun cur call =>
    match call with
    | OspCall.setVec3f o i x y z => if o = obj ∧ i = id then some (x, y, z) else cur
    | _ => cur) none

/-- The renderer states that arise from the constructor by calls of
`setVolume`, `setIsosurface` (either overload), `setCamera`, `setSamples`,
`setBackgroundColor` (either overload) and `addLight`, in an environment `E`. -/
inductive Renderer.Reachable (E : Engine) : World → Prop where
  | construct (mem : World) : Renderer.Reachable E (Renderer.new E mem)
  | setVolume (v : Volume) (s : World) :
      Renderer.Reachable E s → Renderer.Reachable E (Renderer.setVolume E v s)
  | setIsosurface (v : Volume) (isoValues : List F32) (specular : F32) (s : World) :
      Renderer.Reachable E s →
        Renderer.Reachable E (Renderer.setIsosurface E v isoValues specular s)
  | setIsosurfaceDefault (v : Volume) (isoValues : List F32) (s : World) :
      Renderer.Reachable E s →
        Renderer.Reachable E (Renderer.setIsosurfaceDefault E v isoValues s)
  | setCamera (c : Camera) (s : World) :
      Renderer.Reachable E s → Renderer.Reachable E (Renderer.setCamera c s)
  | setSamples (spp : Nat) (s : World) :
      Renderer.Reachable E s → Renderer.Reachable E (Renderer.setSamples spp s)
  | setBackgroundColor (r g b a : UChar) (s : World) :
      Renderer.Reachable E s → Renderer.Reachable E (Renderer.setBackgroundColor r g b a s)
  | setBackgroundColorVec (bgColor : List UChar) (s s' : World) :
      Renderer.Reachable E s → Renderer.setBackgroundColorVec bgColor s = some s' →
        Renderer.Reachable E s'
  | addLight (s : World) :
      Renderer.Reachable E s → Renderer.Reachable E (Renderer.addLight E s)

/-! ## Concrete environments and states -/

/-- An engine that numbers its objects from 1, exposes no pixels and hands
out zeroed memory. -/
def Engine.counting : Engine := ⟨fun n => n + 1, fun _ => [], fun _ => 0⟩

/-- A camera of 2 by 2 pixels. -/
def Camera.small : Camera := ⟨"camera0", 2, 2, F32.fin 0, F32.fin 0, F32.fin 1, 77⟩

/-- A renderer object whose memory is all zero, before its constructor ran,
in an environment where nothing has happened yet. -/
def World.blank : World :=
  { self :=
      { backgroundColor := ⟨0, 0, 0, 0⟩, samples := 0, oRenderer := 0, oCamera := 0,
        oModel := 0, oGroup := 0, oInstance := 0, oWorld := 0, oSurface := 0,
        oMaterial := 0, oFrameBuffer := 0, lights := [], lastVolumeID := "",
        lastCameraID := "", lastRenderType := "", lastIsoValues := [],
        cameraWidth := 0, cameraHeight := 0,
        lightDirection := (F32.fin 0, F32.fin 0, F32.fin 0), pbnjCamera := Camera.small },
    calls := [], created := 0, cerr := [] }

/-- A freshly constructed renderer. -/
def World.fresh : World := Renderer.new Engine.counting World.blank

/-- A volume. -/
def Volume.sample : Volume := ⟨"volume0", 5⟩

/-- A renderer that has just built the isosurface of `Volume.sample` at the
single isovalue 1. -/
def World.isoBuilt : World :=
  Renderer.setIsosurface Engine.counting Volume.sample [F32.fin 1] (F32.fin (1 / 2)) World.fresh

/-- A renderer that has just built the volume `Volume.sample`. -/
def World.volumeBuilt : World := Renderer.setVolume Engine.counting Volume.sample World.fresh

/-- A renderer with `Camera.small` set and nothing to render. -/
def World.cameraSet : World := Renderer.setCamera Camera.small World.fresh

/-- Another volume. -/
def Volume.other : Volume := ⟨"volume1", 6⟩

/-- The memory of a configuration object before its constructor ran. -/
def Configuration.blank : Configuration :=
  { configFilename := "", dataFilename := "", globbedFilenames := [], dataVariable := "",
    dataXDim := 0, dataYDim := 0, dataZDim := 0, imageWidth := 0, imageHeight := 0,
    imageFilename := "", colorMap := [], opacityMap := [], opacityAttenuation := F32.nan,
    samples := 0, cameraX := F32.nan, cameraY := F32.nan, cameraZ := F32.nan,
    cameraUpX := F32.nan, cameraUpY := F32.nan, cameraUpZ := F32.nan }

/-- A file system in which every pattern matches the one file `data1.raw`,
and no colour tables. -/
def ConfigEnv.oneMatch : ConfigEnv := ⟨fun _ => ⟨0, ["data1.raw"]⟩, [], [], [], []⟩

/-- A document whose data filename is a glob pattern. -/
def JsonValue.globDoc : JsonValue :=
  JsonValue.object
    [("filename", JsonValue.string "data*.raw"),
     ("dimensions", JsonValue.array [JsonValue.int 4, JsonValue.int 5, JsonValue.int 6]),
     ("imageSize", JsonValue.array [JsonValue.int 64, JsonValue.int 48]),
     ("outputImageFilename", JsonValue.string "out.png")]

/-- A renderer with a volume built and `Camera.small` set. -/
def World.ready : World := Renderer.setCamera Camera.small World.volumeBuilt

/-! # Theorems -/

/-! ## Rounding is exact on small integers -/

theorem roundHalfEven_intCast (n : ℤ) : roundHalfEven (n : ℚ) = n := by
  simp [roundHalfEven]

theorem roundBinary_zero (p : ℕ) (emin : ℤ) : roundBinary p emin 0 = 0 := by
  simp [roundBinary]

theorem roundBinary_natCast (p : ℕ) (emin : ℤ) (k : ℕ) (hemin : emin ≤ 0)
    (hk : k < 2 ^ p) : roundBinary p emin (k : ℚ) = k := by
  rcases Nat.eq_zero_or_pos k with h0 | hpos
  · subst h0
    simp [roundBinary]
  · have hk0 : (k : ℚ) ≠ 0 := by exact_mod_cast hpos.ne'
    have hlog : Nat.log 2 k < p := Nat.log_lt_of_lt_pow hpos.ne' hk
    obtain ⟨d, hd⟩ : ∃ d : ℕ, p = Nat.log 2 k + 1 + d := ⟨p - (Nat.log 2 k + 1), by omega⟩
    have habs : |(k : ℚ)| = ((k : ℕ) : ℚ) := abs_of_nonneg (by positivity)
    have he : max (Int.log 2 |(k : ℚ)|) emin = (Nat.log 2 k : ℤ) := by
      rw [habs, Int.log_natCast]
      exact max_eq_left (by omega)
    have hexp : ((Nat.log 2 k : ℕ) : ℤ) - ((p : ℤ) - 1) = -(d : ℤ) := by
      rw [hd]; push_cast; ring
    have hulp : (2 : ℚ) ^ (-(d : ℤ)) = ((2 : ℚ) ^ d)⁻¹ := by
      rw [zpow_neg, zpow_natCast]
    have hdiv : (k : ℚ) / ((2 : ℚ) ^ d)⁻¹ = (((k * 2 ^ d : ℕ) : ℤ) : ℚ) := by
      rw [div_inv_eq_mul]; push_cast; ring
    unfold roundBinary
    rw [if_neg hk0]
    simp only [he, hexp, hulp, hdiv, roundHalfEven_intCast]
    push_cast
    field_simp

theorem roundF32_natCast (k : ℕ) (hk : k < 2 ^ 24) : roundF32 (k : ℚ) = k :=
  roundBinary_natCast 24 (-126) k (by norm_num) hk

theorem roundF64_natCast (k : ℕ) (hk : k < 2 ^ 53) : roundF64 (k : ℚ) = k :=
  roundBinary_natCast 53 (-1022) k (by norm_num) hk

theorem roundF32_zero : roundF32 0 = 0 := roundBinary_zero _ _

theorem roundF64_zero : roundF64 0 = 0 := roundBinary_zero _ _

theorem roundF32_one : roundF32 1 = 1 := by
  simpa using roundF32_natCast 1 (by norm_num)

theorem roundF64_one : roundF64 1 = 1 := by
  simpa using roundF64_natCast 1 (by norm_num)

theorem roundF32_uchar (c : UChar) : roundF32 (c.val : ℚ) = c.val :=
  roundF32_natCast c.val (lt_trans c.isLt (by norm_num))

theorem toUChar_uchar (c : UChar) : toUChar (c.val : ℚ) = c := by
  simp [toUChar, Fin.ofNat, Nat.mod_eq_of_lt c.isLt]

theorem setVolume_records (E : Engine) (v : Volume) (s : World) :
    (Renderer.setVolume E v s).self.lastVolumeID = v.ID
      ∧ (Renderer.setVolume E v s).self.lastRenderType = "volume" := by
  unfold Renderer.setVolume
  split_ifs with h h2
  · exact h
  · simp [Renderer.buildSceneGraph, World.upd, World.osp, World.ospNew]
  · simp [Renderer.buildSceneGraph, World.upd, World.osp, World.ospNew]

/-- C1: calling `setVolume(v)` a second time directly after `setVolume(v)`
leaves the whole state unchanged: the member variables (among them
`lastVolumeID`, `lastRenderType` and the model, group, instance and world
handles), the trace of engine calls (nothing released or created) and the
engine's object count. -/
theorem setVolume_twice (E : Engine) (v : Volume) (s : World) :
    Renderer.setVolume E v (Renderer.setVolume E v s) = Renderer.setVolume E v s := by
  have h := setVolume_records E v s
  generalize Renderer.setVolume E v s = t at h
  unfold Renderer.setVolume
  rw [if_pos h]

/-- C2: when `lastVolumeID` equals `v.ID`, `lastRenderType` is
`"isosurface"` and `lastIsoValues == isoValues` holds, `setIsosurface(v,
isoValues, specular)` leaves the whole state unchanged, whatever `specular`
is: no engine call is made, so nothing is released or created and no light
or material is added. -/
theorem setIsosurface_skip (E : Engine) (v : Volume) (isoValues : List F32) (specular : F32)
    (s : World) (hid : s.self.lastVolumeID = v.ID)
    (htype : s.self.lastRenderType = "isosurface")
    (hiso : vecEq s.self.lastIsoValues isoValues = true) :
    Renderer.setIsosurface E v isoValues specular s = s := by
  unfold Renderer.setIsosurface
  rw [if_pos ⟨hid, htype, hiso⟩]

/-- C3: when the camera's `ID` equals the recorded `lastCameraID`,
`setCamera(c)` leaves the whole state unchanged: the camera handle is neither
released nor replaced and `cameraWidth`, `cameraHeight`, `lightDirection` and
the stored camera keep their values. -/
theorem setCamera_skip (c : Camera) (s : World) (hid : s.self.lastCameraID = c.ID) :
    Renderer.setCamera c s = s := by
  unfold Renderer.setCamera
  rw [if_pos hid]

theorem setIsosurface_skip_witness :
    Renderer.setIsosurface Engine.counting Volume.sample [F32.fin 1] F32.nan World.isoBuilt
      = World.isoBuilt :=
  setIsosurface_skip Engine.counting Volume.sample [F32.fin 1] F32.nan World.isoBuilt
    (by rfl) (by rfl) (by rfl)

theorem setCamera_skip_witness : Renderer.setCamera Camera.small World.cameraSet = World.cameraSet :=
  setCamera_skip Camera.small World.cameraSet (by rfl)

/-- C4: when `v.ID` differs from `lastVolumeID` or `lastRenderType` is not
`"volume"`, `setVolume(v)` appends engine calls that start with the release
of the old model, group, instance and world (when a world exists) and that
contain the constructor calls whose results are the new model, group,
instance and world handles, and it records `v.ID` and `"volume"`.  Likewise
`setIsosurface(v, isoValues, s)`, when the ID, the render type or the
isovalues (under `==`) differ from the recorded ones, releases, rebuilds and
records `v.ID`, `"isosurface"` and `isoValues`. -/
theorem rebuild_on_change (E : Engine) (v : Volume) (isoValues : List F32) (specular : F32)
    (s : World) :
    ((s.self.lastVolumeID ≠ v.ID ∨ s.self.lastRenderType ≠ "volume") →
      ∃ news : List OspCall,
        (Renderer.setVolume E v s).calls = s.calls ++ news
        ∧ (s.self.oWorld ≠ NULL → List.IsPrefix (Renderer.sceneGraphReleases s.self) news)
        ∧ OspCall.newVolumetricModel v.asOSPRayObject (Renderer.setVolume E v s).self.oModel
            ∈ news
        ∧ OspCall.newGroup (Renderer.setVolume E v s).self.oGroup ∈ news
        ∧ OspCall.newInstance (Renderer.setVolume E v s).self.oGroup
            (Renderer.setVolume E v s).self.oInstance ∈ news
        ∧ OspCall.newWorld (Renderer.setVolume E v s).self.oWorld ∈ news
        ∧ (Renderer.setVolume E v s).self.lastVolumeID = v.ID
        ∧ (Renderer.setVolume E v s).self.lastRenderType = "volume")
    ∧ ((s.self.lastVolumeID ≠ v.ID ∨ s.self.lastRenderType ≠ "isosurface"
          ∨ vecEq s.self.lastIsoValues isoValues = false) →
      ∃ news : List OspCall,
        (Renderer.setIsosurface E v isoValues specular s).calls = s.calls ++ news
        ∧ (s.self.oWorld ≠ NULL → List.IsPrefix (Renderer.sceneGraphReleases s.self) news)
        ∧ OspCall.newGeometricModel
            (Renderer.setIsosurface E v isoValues specular s).self.oSurface
            (Renderer.setIsosurface E v isoValues specular s).self.oModel ∈ news
        ∧ OspCall.newGroup (Renderer.setIsosurface E v isoValues specular s).self.oGroup ∈ news
        ∧ OspCall.newInstance (Renderer.setIsosurface E v isoValues specular s).self.oGroup
            (Renderer.setIsosurface E v isoValues specular s).self.oInstance ∈ news
        ∧ OspCall.newWorld (Renderer.setIsosurface E v isoValues specular s).self.oWorld ∈ news
        ∧ (Renderer.setIsosurface E v isoValues specular s).self.lastVolumeID = v.ID
        ∧ (Renderer.setIsosurface E v isoValues specular s).self.lastRenderType = "isosurface"
        ∧ (Renderer.setIsosurface E v isoValues specular s).self.lastIsoValues = isoValues) := by
  constructor
  · intro h
    have hc : ¬ (s.self.lastVolumeID = v.ID ∧ s.self.lastRenderType = "volume") := by
      rintro ⟨h1, h2⟩
      rcases h with h | h
      · exact h h1
      · exact h h2
    refine ⟨(Renderer.setVolume E v s).calls.drop s.calls.length, ?_⟩
    unfold Renderer.setVolume
    rw [if_neg hc]
    by_cases hw : s.self.oWorld = NULL
    · simp [hw, Renderer.buildSceneGraph, World.upd, World.osp, World.ospNew]
    · simp [hw, Renderer.buildSceneGraph, Renderer.releaseSceneGraph,
        Renderer.sceneGraphReleases, World.upd, World.osp, World.ospNew]
  · intro h
    have hc : ¬ (s.self.lastVolumeID = v.ID ∧ s.self.lastRenderType = "isosurface"
        ∧ vecEq s.self.lastIsoValues isoValues = true) := by
      rintro ⟨h1, h2, h3⟩
      rcases h with h | h | h
      · exact h h1
      · exact h h2
      · rw [h3] at h
        exact Bool.noConfusion h
    refine ⟨(Renderer.setIsosurface E v isoValues specular s).calls.drop s.calls.length, ?_⟩
    unfold Renderer.setIsosurface
    rw [if_neg hc]
    by_cases hw : s.self.oWorld = NULL <;> by_cases hl : s.self.lights = []
      <;> by_cases hm : s.self.oMaterial = NULL <;> by_cases hs : s.self.oSurface = NULL
      <;> simp [hw, hl, hm, hs, Renderer.buildSceneGraph, Renderer.releaseSceneGraph,
        Renderer.addLight, Renderer.sceneGraphReleases, World.upd, World.osp, World.ospNew]

theorem rebuild_on_change_witness :
    (World.volumeBuilt.self.lastVolumeID ≠ Volume.other.ID
        ∨ World.volumeBuilt.self.lastRenderType ≠ "volume")
    ∧ (∃ news : List OspCall,
        (Renderer.setVolume Engine.counting Volume.other World.volumeBuilt).calls
          = World.volumeBuilt.calls ++ news
        ∧ List.IsPrefix (Renderer.sceneGraphReleases World.volumeBuilt.self) news
        ∧ (Renderer.setVolume Engine.counting Volume.other World.volumeBuilt).self.lastVolumeID
          = "volume1")
    ∧ (World.volumeBuilt.self.lastVolumeID ≠ Volume.sample.ID
        ∨ World.volumeBuilt.self.lastRenderType ≠ "isosurface"
        ∨ vecEq World.volumeBuilt.self.lastIsoValues [F32.fin 1] = false)
    ∧ (Renderer.setIsosurface Engine.counting Volume.sample [F32.fin 1] F32.nan
        World.volumeBuilt).self.lastRenderType = "isosurface" := by
  have hv : World.volumeBuilt.self.lastVolumeID ≠ Volume.other.ID
      ∨ World.volumeBuilt.self.lastRenderType ≠ "volume" := Or.inl (by decide)
  have hi : World.volumeBuilt.self.lastVolumeID ≠ Volume.sample.ID
      ∨ World.volumeBuilt.self.lastRenderType ≠ "isosurface"
      ∨ vecEq World.volumeBuilt.self.lastIsoValues [F32.fin 1] = false :=
    Or.inr (Or.inl (by decide))
  have hw : World.volumeBuilt.self.oWorld ≠ NULL := by decide
  obtain ⟨news, h1, h2, -, -, -, -, h3, -⟩ :=
    (rebuild_on_change Engine.counting Volume.other [F32.fin 1] F32.nan World.volumeBuilt).1 hv
  obtain ⟨-, -, -, -, -, -, -, -, h4, -⟩ :=
    (rebuild_on_change Engine.counting Volume.sample [F32.fin 1] F32.nan World.volumeBuilt).2 hi
  exact ⟨hv, ⟨news, h1, h2 hw, h3⟩, hi, h4⟩

/-! ## Background colour -/

/-- C6: `setBackgroundColor(vector)` always completes without reading
outside the vector, and the stored background colour is `(0,0,0,0)` for fewer
than 3 elements, `(bg[0],bg[1],bg[2],255)` for exactly 3 elements and
`(bg[0],bg[1],bg[2],bg[3])` for 4 or more. -/
theorem setBackgroundColorVec_normalises (bgColor : List UChar) (s : World) :
    ∃ s' : World, Renderer.setBackgroundColorVec bgColor s = some s'
      ∧ (bgColor.length < 3 → s'.self.backgroundColor = ⟨0, 0, 0, 0⟩)
      ∧ (∀ r g b, bgColor = [r, g, b] → s'.self.backgroundColor = ⟨r, g, b, 255⟩)
      ∧ (∀ r g b a rest, bgColor = r :: g :: b :: a :: rest →
          s'.self.backgroundColor = ⟨r, g, b, a⟩) := by
  rcases bgColor with _ | ⟨r, _ | ⟨g, _ | ⟨b, _ | ⟨a, rest⟩⟩⟩⟩
  · exact ⟨_, rfl, by simp [Renderer.setBackgroundColor, World.upd, World.osp], by simp, by simp⟩
  · exact ⟨_, rfl, by simp [Renderer.setBackgroundColor, World.upd, World.osp], by simp, by simp⟩
  · exact ⟨_, rfl, by simp [Renderer.setBackgroundColor, World.upd, World.osp], by simp, by simp⟩
  · refine ⟨Renderer.setBackgroundColor r g b 255 s, ?_, by simp, ?_, by simp⟩
    · simp [Renderer.setBackgroundColorVec]
    · intro r' g' b' h
      simp only [List.cons.injEq, and_true] at h
      obtain ⟨rfl, rfl, rfl⟩ := h
      simp [Renderer.setBackgroundColor, World.upd, World.osp]
  · refine ⟨Renderer.setBackgroundColor r g b a s, ?_, by simp, by simp, ?_⟩
    · simp [Renderer.setBackgroundColorVec]
    · intro r' g' b' a' rest' h
      simp only [List.cons.injEq] at h
      obtain ⟨rfl, rfl, rfl, rfl, -⟩ := h
      simp [Renderer.setBackgroundColor, World.upd, World.osp]

theorem setBackgroundColorVec_normalises_witness :
    ∃ s' : World, Renderer.setBackgroundColorVec [1, 2, 3] World.fresh = some s'
      ∧ s'.self.backgroundColor = ⟨1, 2, 3, 255⟩ := by
  obtain ⟨s', h, -, h3, -⟩ := setBackgroundColorVec_normalises [1, 2, 3] World.fresh
  exact ⟨s', h, h3 1 2 3 rfl⟩

/-! ## The null check of `render` -/

/-- C7: when no model or no camera has been set, `render()` makes no engine
call at all (no commit, no framebuffer, no frame render), leaves every member
variable and the engine's object count as they were, and only reports on
`std::cerr`. -/
theorem render_null_check (E : Engine) (s : World)
    (h : s.self.oModel = NULL ∨ s.self.oCamera = NULL) :
    (Renderer.render E s).self = s.self
      ∧ (Renderer.render E s).calls = s.calls
      ∧ (Renderer.render E s).created = s.created
      ∧ (Renderer.render E s).cerr = s.cerr
          ++ (if s.self.oModel = NULL then ["No volume set to render!"] else [])
          ++ (if s.self.oCamera = NULL then ["No camera set to render with!"] else []) := by
  unfold Renderer.render
  by_cases hm : s.self.oModel = NULL <;> by_cases hc : s.self.oCamera = NULL
  · simp [hm, hc, World.print]
  · simp [hm, hc, World.print]
  · simp [hm, hc, World.print]
  · rcases h with h | h
    · exact absurd h hm
    · exact absurd h hc

theorem render_null_check_witness :
    (World.cameraSet.self.oModel = NULL ∨ World.cameraSet.self.oCamera = NULL)
      ∧ (Renderer.render Engine.counting World.cameraSet).self = World.cameraSet.self
      ∧ (Renderer.render Engine.counting World.cameraSet).calls = World.cameraSet.calls
      ∧ (Renderer.render Engine.counting World.cameraSet).cerr
          = World.cameraSet.cerr ++ ["No volume set to render!"] := by
  have h : World.cameraSet.self.oModel = NULL ∨ World.cameraSet.self.oCamera = NULL :=
    Or.inl (by rfl)
  obtain ⟨h1, h2, -, h4⟩ := render_null_check Engine.counting World.cameraSet h
  refine ⟨h, h1, h2, ?_⟩
  rw [h4]
  rfl

/-! ## File type from the extension -/

theorem extractLine_no_delim (d : Char) (cs acc : List Char) (h : d ∉ cs) :
    extractLine d cs acc = (acc ++ cs, [], true) := by
  induction cs generalizing acc with
  | nil => simp [extractLine]
  | cons c cs ih =>
    have hc : c ≠ d := fun e => h (by simp [e])
    have hcs : d ∉ cs := fun e => h (List.mem_cons_of_mem _ e)
    simp [extractLine, hc, ih _ hcs]

theorem extractLine_delim (d : Char) (pre rest acc : List Char) (h : d ∉ pre) :
    extractLine d (pre ++ d :: rest) acc = (acc ++ pre, rest, false) := by
  induction pre generalizing acc with
  | nil => simp [extractLine]
  | cons c cs ih =>
    have hc : c ≠ d := fun e => h (by simp [e])
    have hcs : d ∉ cs := fun e => h (List.mem_cons_of_mem _ e)
    simp [extractLine, hc, ih _ hcs]

theorem takeWhile_append_cons_stop {α : Type} (p : α → Bool) (l₁ : List α) (x : α)
    (l₂ : List α) (hx : p x = false) :
    (l₁ ++ x :: l₂).takeWhile p = l₁.takeWhile p := by
  induction l₁ with
  | nil => simp [List.takeWhile, hx]
  | cons a l ih =>
    by_cases ha : p a = true
    · simp [List.takeWhile, ha, ih]
    · simp [List.takeWhile, ha]

/-- The text after the last delimiter of a character list. -/
theorem lastField_no_delim (cs : List Char) (h : '.' ∉ cs) :
    (cs.reverse.takeWhile fun c => c ≠ '.').reverse = cs := by
  have : (cs.reverse.takeWhile fun c => c ≠ '.') = cs.reverse := by
    rw [List.takeWhile_eq_self_iff]
    intro x hx
    have hx' : x ∈ cs := List.mem_reverse.mp hx
    have : x ≠ '.' := fun e => h (e ▸ hx')
    simpa using this
  rw [this, List.reverse_reverse]

theorem lastField_delim (pre rest : List Char) :
    ((pre ++ '.' :: rest).reverse.takeWhile fun c => c ≠ '.').reverse
      = (rest.reverse.takeWhile fun c => c ≠ '.').reverse := by
  have : (pre ++ '.' :: rest).reverse = rest.reverse ++ '.' :: pre.reverse := by simp
  rw [this, takeWhile_append_cons_stop _ _ _ _ (by simp)]

theorem getFiletypeLoop_good (fuel : Nat) (cs token : List Char) (hfuel : cs.length + 2 ≤ fuel) :
    getFiletypeLoop fuel ⟨cs, false, false⟩ token
      = some (cs.reverse.takeWhile fun c => c ≠ '.').reverse := by
  induction fuel generalizing cs token with
  | zero => omega
  | succ fuel ih =>
    by_cases hmem : '.' ∈ cs
    · obtain ⟨pre, rest, rfl, hpre⟩ := List.eq_append_cons_of_mem hmem
      have hlen : rest.length + 2 ≤ fuel := by
        simp only [List.length_append, List.length_cons] at hfuel
        omega
      have hstep : getline ⟨pre ++ '.' :: rest, false, false⟩ token '.'
          = (⟨rest, false, false⟩, pre) := by
        simp [getline, extractLine_delim '.' pre rest [] hpre]
        omega
      rw [getFiletypeLoop, hstep]
      simp only [Bool.false_eq_true, if_false]
      rw [ih rest pre hlen, lastField_delim]
    · rcases cs with _ | ⟨c, cs⟩
      · simp [getFiletypeLoop, getline, extractLine]
      · have hstep : getline ⟨c :: cs, false, false⟩ token '.'
            = (⟨[], true, false⟩, c :: cs) := by
          simp [getline, extractLine_no_delim '.' (c :: cs) [] hmem]
        rw [getFiletypeLoop, hstep]
        simp only [Bool.false_eq_true, if_false]
        obtain ⟨fuel', rfl⟩ : ∃ f, fuel = f + 1 := ⟨fuel - 1, by simp at hfuel; omega⟩
        rw [lastField_no_delim _ hmem]
        simp [getFiletypeLoop, getline]

/-- A filename without `.` is its own extension. -/
theorem fileExtension_no_dot (filename : String) (h : '.' ∉ filename.toList) :
    fileExtension filename = filename := by
  unfold fileExtension
  rw [lastField_no_delim _ h]
  cases filename
  rfl

/-- The extension of `pre.ext`, where `ext` has no `.`, is `ext`. -/
theorem fileExtension_dot (pre ext : List Char) (h : '.' ∉ ext) :
    fileExtension (String.mk (pre ++ '.' :: ext)) = String.mk ext := by
  unfold fileExtension
  show String.mk ((pre ++ '.' :: ext).reverse.takeWhile fun c => c ≠ '.').reverse = String.mk ext
  rw [lastField_delim, lastField_no_delim _ h]

/-- C5: `getFiletype` always returns, and its result is decided by the
extension alone (the text after the last `.`, the whole name when there is
no `.`, nothing when the name is empty or ends in `.`): `PIXMAP` exactly for
`ppm`, `PNG` exactly for `png`, `JPG` exactly for `jpg` and `jpeg`, and
`INVALID` for everything else; the comparison is case-sensitive. -/
theorem getFiletype_by_extension (filename : String) :
    ∃ t : IMAGETYPE, Renderer.getFiletype filename = some t
      ∧ (t = IMAGETYPE.PIXMAP ↔ fileExtension filename = "ppm")
      ∧ (t = IMAGETYPE.PNG ↔ fileExtension filename = "png")
      ∧ (t = IMAGETYPE.JPG ↔ fileExtension filename = "jpg" ∨ fileExtension filename = "jpeg")
      ∧ (t = IMAGETYPE.INVALID ↔ fileExtension filename ≠ "ppm"
          ∧ fileExtension filename ≠ "png" ∧ fileExtension filename ≠ "jpg"
          ∧ fileExtension filename ≠ "jpeg") := by
  have hloop := getFiletypeLoop_good (filename.length + 2) filename.toList []
    (le_of_eq rfl)
  unfold Renderer.getFiletype
  rw [hloop]
  simp only [Option.map_some', fileExtension]
  generalize String.mk (filename.toList.reverse.takeWhile fun c => c ≠ '.').reverse = ext
  refine ⟨_, rfl, ?_⟩
  by_cases h1 : ext = "ppm"
  · subst h1
    simp
  · by_cases h2 : ext = "png"
    · subst h2
      simp
    · by_cases h3 : ext = "jpg"
      · subst h3
        simp
      · by_cases h4 : ext = "jpeg"
        · subst h4
          simp
        · simp [h1, h2, h3, h4]

/-! ## Checked `int` arithmetic and memory accesses -/

theorem cint_of_inInt (x : ℤ) (h : inInt x) : cint x = some x := if_pos h

theorem cint_of_not_inInt (x : ℤ) (h : ¬ inInt x) : cint x = none := if_neg h

theorem cint_natCast (n : ℕ) (h : n ≤ 2147483647) : cint (n : ℤ) = some (n : ℤ) := by
  apply cint_of_inInt
  constructor
  · have : (0 : ℤ) ≤ n := Int.natCast_nonneg n
    simp only [INT_MIN]
    omega
  · simp only [INT_MAX]
    omega

theorem load_natCast (mem : List UChar) (n : ℕ) (h : n < mem.length) :
    load mem (n : ℤ) = some (mem.getD n 0) := by
  rw [load, if_pos (Int.natCast_nonneg n), Int.toNat_natCast, List.getD_eq_getElem?_getD,
    List.getElem?_eq_getElem h]
  rfl

theorem store_natCast (mem : List UChar) (n : ℕ) (x : UChar) (h : n < mem.length) :
    store mem (n : ℤ) x = some (mem.set n x) := by
  rw [store, if_pos ⟨Int.natCast_nonneg n, by exact_mod_cast h⟩, Int.toNat_natCast]

/-- A read `rowIn[4*i + k]` inside the framebuffer, with an offset inside
`int`, yields the byte at that place. -/
theorem rowByte_natCast (colorBuffer : List UChar) (r i k : ℕ) (hk : 4 * i + k ≤ 2147483647)
    (hin : 4 * r + (4 * i + k) < colorBuffer.length) :
    rowByte colorBuffer (r : ℤ) i (k : ℤ) = some (colorBuffer.getD (4 * r + (4 * i + k)) 0) := by
  have h1 : cint (4 * (i : ℤ)) = some (((4 * i : ℕ)) : ℤ) := by
    have := cint_natCast (4 * i) (by omega)
    push_cast at this ⊢
    exact this
  have h2 : cint ((((4 * i : ℕ)) : ℤ) + (k : ℤ)) = some (((4 * i + k : ℕ)) : ℤ) := by
    have := cint_natCast (4 * i + k) hk
    push_cast at this ⊢
    exact this
  have h3 : (4 : ℤ) * (r : ℤ) + (((4 * i + k : ℕ)) : ℤ) = ((4 * r + (4 * i + k) : ℕ) : ℤ) := by
    push_cast
    ring
  simp only [rowByte, h1, Option.bind_eq_bind, Option.some_bind, h2, h3]
  exact load_natCast _ _ hin

/-- A write `buffer[m*index + k] = v` inside the buffer, with an offset
inside `int`, changes the byte at that place. -/
theorem putByte_natCast (buffer : List UChar) (m index k : ℕ) (v : UChar)
    (hk : m * index + k ≤ 2147483647) (hin : m * index + k < buffer.length) :
    putByte buffer (m : ℤ) (index : ℤ) (k : ℤ) v = some (buffer.set (m * index + k) v) := by
  have h1 : cint ((m : ℤ) * (index : ℤ)) = some (((m * index : ℕ)) : ℤ) := by
    have := cint_natCast (m * index) (by omega)
    push_cast at this ⊢
    exact this
  have h2 : cint ((((m * index : ℕ)) : ℤ) + (k : ℤ)) = some (((m * index + k : ℕ)) : ℤ) := by
    have := cint_natCast (m * index + k) hk
    push_cast at this ⊢
    exact this
  simp only [putByte, h1, Option.bind_eq_bind, Option.some_bind, h2]
  exact store_natCast _ _ _ hin

/-! ## Loops that fill a buffer block by block -/

/-- A loop whose `k`-th iteration is defined on a buffer of `L` cells, writes
exactly the `m` cells starting at `base + m * k` and keeps the length, is
defined, fills the first `n` blocks and touches nothing else. -/
theorem foldlM_blocks {α : Type} (m base L N : ℕ) (f : List α → ℕ → Option (List α))
    (val : ℕ → ℕ → α)
    (hstep : ∀ buf k, k < N → buf.length = L →
      ∃ buf1, f buf k = some buf1 ∧ buf1.length = L
        ∧ (∀ c, c < m → base + m * k + c < L → buf1[base + m * k + c]? = some (val k c))
        ∧ (∀ idx, idx < base + m * k ∨ base + m * k + m ≤ idx → buf1[idx]? = buf[idx]?))
    (buf : List α) (hbuf : buf.length = L) (n : ℕ) (hn : n ≤ N) :
    ∃ r, (List.range n).foldlM f buf = some r ∧ r.length = L
      ∧ (∀ k c, k < n → c < m → base + m * k + c < L →
          r[base + m * k + c]? = some (val k c))
      ∧ (∀ idx, idx < base ∨ base + m * n ≤ idx → r[idx]? = buf[idx]?) := by
  induction n with
  | zero => exact ⟨buf, by simp, hbuf, by intro k c hk; omega, by intro idx _; rfl⟩
  | succ n ih =>
    obtain ⟨r, hr, rlen, rin, rout⟩ := ih (by omega)
    obtain ⟨b, hb, blen, bin, bout⟩ := hstep r n (by omega) rlen
    refine ⟨b, ?_, blen, ?_, ?_⟩
    · rw [List.range_succ, List.foldlM_append, hr]
      simp [hb]
    · intro k c hk hc hidx
      rcases Nat.lt_succ_iff_lt_or_eq.mp hk with hlt | rfl
      · have h1 : m * (k + 1) ≤ m * n := Nat.mul_le_mul_left m hlt
        rw [Nat.mul_succ] at h1
        rw [bout _ (Or.inl (by omega))]
        exact rin k c hlt hc hidx
      · exact bin c hc hidx
    · intro idx hidx
      have h1 : m * (n + 1) = m * n + m := Nat.mul_succ m n
      rw [bout idx (by omega)]
      exact rout idx (by omega)

theorem getD_of_getElem_some (l : List UChar) (i : Nat) (x : UChar) (h : l[i]? = some x) :
    l.getD i 0 = x := by
  rw [List.getD_eq_getElem?_getD, h]
  rfl

theorem getElem_some_getD (l : List UChar) (i : Nat) (h : i < l.length) :
    l[i]? = some (l.getD i 0) := by
  rw [List.getD_eq_getElem?_getD, List.getElem?_eq_getElem h]
  rfl

/-- Position `(height - 1 - j, i)` lies inside a framebuffer of `width *
height` pixels. -/
theorem flipped_index_lt (width height j i : Nat) (hj : j < height) (hi : i < width) :
    (height - 1 - j) * width + i < width * height := by
  have h1 : (height - 1 - j + 1) * width ≤ height * width :=
    Nat.mul_le_mul_right _ (by omega)
  rw [Nat.succ_mul] at h1
  rw [Nat.mul_comm width height]
  omega

/-- Position `(j, i)` lies inside an image of `width * height` pixels. -/
theorem index_lt (width height j i : Nat) (hj : j < height) (hi : i < width) :
    j * width + i < width * height := by
  have h1 : (j + 1) * width ≤ height * width := Nat.mul_le_mul_right _ (by omega)
  rw [Nat.succ_mul] at h1
  rw [Nat.mul_comm width height]
  omega

/-! ## `renderToBuffer` -/

/-- On an input pixel of alpha 255 the compositing is exact. -/
theorem compositePixel_alpha255 (bg : Color4) (p0 p1 p2 : UChar) :
    compositePixel bg p0 p1 p2 255 = (p0, p1, p2, 255) := by
  have ha : roundF32 (roundF64 ((((255 : UChar).val : ℕ) : ℚ) / 255)) = 1 := by
    have hv : (255 : UChar).val = 255 := rfl
    have : ((((255 : UChar).val : ℕ) : ℚ) / 255) = 1 := by rw [hv]; norm_num
    rw [this, roundF64_one, roundF32_one]
  have h255 : roundF32 255 = 255 := by
    simpa using roundF32_natCast 255 (by norm_num)
  have ht : toUChar 255 = 255 := by
    simpa using toUChar_uchar 255
  simp only [compositePixel, ha, mul_one, sub_self, roundF32_zero, mul_zero, add_zero,
    roundF32_uchar, toUChar_uchar, roundF32_one, h255, ht]

/-- The body of the inner loop of `renderToBuffer` at a position inside an
image whose `4 * width * height` bytes are counted inside `int`: it is
defined and writes the four composited bytes of the pixel. -/
theorem renderToBufferPixel_natCast (width height : ℕ) (bg : Color4)
    (colorBuffer buffer : List UChar) (j i : ℕ) (hj : j < height) (hi : i < width)
    (hn : 4 * (width * height) ≤ 2147483647)
    (hfb : colorBuffer.length = 4 * (width * height))
    (hbuf : buffer.length = 4 * (width * height)) :
    renderToBufferPixel (width : ℤ) bg colorBuffer (((height - 1 - j) * width : ℕ) : ℤ) j i
        buffer
      = some ((((buffer.set (4 * (j * width + i) + 0)
            (let p := pixelIn width height colorBuffer j i
             compositePixel bg p.1 p.2.1 p.2.2.1 p.2.2.2).1).set (4 * (j * width + i) + 1)
            (let p := pixelIn width height colorBuffer j i
             compositePixel bg p.1 p.2.1 p.2.2.1 p.2.2.2).2.1).set (4 * (j * width + i) + 2)
            (let p := pixelIn width height colorBuffer j i
             compositePixel bg p.1 p.2.1 p.2.2.1 p.2.2.2).2.2.1).set (4 * (j * width + i) + 3)
            (let p := pixelIn width height colorBuffer j i
             compositePixel bg p.1 p.2.1 p.2.2.1 p.2.2.2).2.2.2) := by
  have hsrc := flipped_index_lt width height j i hj hi
  have hdst := index_lt width height j i hj hi
  have h1 : cint ((j : ℤ) * (width : ℤ)) = some (((j * width : ℕ)) : ℤ) := by
    have := cint_natCast (j * width) (by omega)
    push_cast at this ⊢
    exact this
  have h2 : cint ((((j * width : ℕ)) : ℤ) + (i : ℤ)) = some (((j * width + i : ℕ)) : ℤ) := by
    have := cint_natCast (j * width + i) (by omega)
    push_cast at this ⊢
    exact this
  have r0 := rowByte_natCast colorBuffer ((height - 1 - j) * width) i 0 (by omega) (by omega)
  have r1 := rowByte_natCast colorBuffer ((height - 1 - j) * width) i 1 (by omega) (by omega)
  have r2 := rowByte_natCast colorBuffer ((height - 1 - j) * width) i 2 (by omega) (by omega)
  have r3 := rowByte_natCast colorBuffer ((height - 1 - j) * width) i 3 (by omega) (by omega)
  simp only [Nat.cast_ofNat, Nat.cast_zero, Nat.cast_one] at r0 r1 r2 r3
  have p0 := fun (b : List UChar) (v : UChar) (hb : b.length = 4 * (width * height)) =>
    putByte_natCast b 4 (j * width + i) 0 v (by omega) (by omega)
  have p1 := fun (b : List UChar) (v : UChar) (hb : b.length = 4 * (width * height)) =>
    putByte_natCast b 4 (j * width + i) 1 v (by omega) (by omega)
  have p2 := fun (b : List UChar) (v : UChar) (hb : b.length = 4 * (width * height)) =>
    putByte_natCast b 4 (j * width + i) 2 v (by omega) (by omega)
  have p3 := fun (b : List UChar) (v : UChar) (hb : b.length = 4 * (width * height)) =>
    putByte_natCast b 4 (j * width + i) 3 v (by omega) (by omega)
  simp only [Nat.cast_ofNat, Nat.cast_zero, Nat.cast_one] at p0 p1 p2 p3
  simp only [renderToBufferPixel, h1, h2, r0, r1, r2, r3, Option.bind_eq_bind,
    Option.some_bind, pixelIn]
  rw [p0 _ _ hbuf, Option.some_bind, p1 _ _ (by simp [hbuf]), Option.some_bind,
    p2 _ _ (by simp [hbuf]), Option.some_bind, p3 _ _ (by simp [hbuf])]

/-- The inner loop of `renderToBuffer` for output row `j` is defined, fills
the `width` pixels of that row and touches nothing else. -/
theorem renderToBufferRow_cells (width height : ℕ) (bg : Color4)
    (colorBuffer buffer : List UChar) (j : ℕ) (hj : j < height)
    (hn : 4 * (width * height) ≤ 2147483647)
    (hfb : colorBuffer.length = 4 * (width * height))
    (hbuf : buffer.length = 4 * (width * height)) :
    ∃ r, (List.range width).foldlM (fun buffer i =>
          renderToBufferPixel (width : ℤ) bg colorBuffer (((height - 1 - j) * width : ℕ) : ℤ)
            j i buffer) buffer = some r
      ∧ r.length = 4 * (width * height)
      ∧ (∀ i c, i < width → c < 4 →
          r[4 * (j * width) + 4 * i + c]?
            = some (sel4 (let p := pixelIn width height colorBuffer j i
                          compositePixel bg p.1 p.2.1 p.2.2.1 p.2.2.2) c))
      ∧ (∀ idx, idx < 4 * (j * width) ∨ 4 * (j * width) + 4 * width ≤ idx →
          r[idx]? = buffer[idx]?) := by
  obtain ⟨r, hr, rlen, rin, rout⟩ := foldlM_blocks 4 (4 * (j * width)) (4 * (width * height))
    width
    (fun buffer i =>
      renderToBufferPixel (width : ℤ) bg colorBuffer (((height - 1 - j) * width : ℕ) : ℤ)
        j i buffer)
    (fun i c => sel4 (let p := pixelIn width height colorBuffer j i
                      compositePixel bg p.1 p.2.1 p.2.2.1 p.2.2.2) c)
    (by
      intro buf k hk hlen
      refine ⟨_, renderToBufferPixel_natCast width height bg colorBuffer buf j k hj hk hn hfb
        hlen, by simp [hlen], ?_, ?_⟩
      · intro c hc hidx
        have e : 4 * (j * width + k) = 4 * (j * width) + 4 * k := by ring
        simp only [sel4, e, List.getElem?_set, List.length_set]
        interval_cases c
        · simp
          omega
        · simp
          omega
        · simp
          omega
        · simp
          omega
      · intro idx hidx
        have e : 4 * (j * width + k) = 4 * (j * width) + 4 * k := by ring
        simp only [e, List.getElem?_set, List.length_set]
        rw [if_neg (by omega), if_neg (by omega), if_neg (by omega), if_neg (by omega)])
    buffer hbuf width le_rfl
  refine ⟨r, hr, rlen, ?_, rout⟩
  intro i c hi hc
  have hdst := index_lt width height j i hj hi
  exact rin i c hi hc (by omega)

/-- The two loops of `renderToBuffer`, for an image whose `4 * width *
height` bytes are counted inside `int`, are defined and fill every cell of the
buffer: cell `c` of output row `j` holds component `c % 4` of the composited
pixel `c / 4` of that row. -/
theorem renderToBufferLoop_cells (width height : ℕ) (bg : Color4)
    (colorBuffer buffer : List UChar) (hn : 4 * (width * height) ≤ 2147483647)
    (hfb : colorBuffer.length = 4 * (width * height))
    (hbuf : buffer.length = 4 * (width * height)) :
    ∃ r, renderToBufferLoop (width : ℤ) (height : ℤ) bg colorBuffer buffer = some r
      ∧ r.length = 4 * (width * height)
      ∧ ∀ j c, j < height → c < 4 * width →
          r[4 * width * j + c]?
            = some (sel4 (let p := pixelIn width height colorBuffer j (c / 4)
                          compositePixel bg p.1 p.2.1 p.2.2.1 p.2.2.2) (c % 4)) := by
  obtain ⟨r, hr, rlen, rin, -⟩ := foldlM_blocks (4 * width) 0 (4 * (width * height)) height
    (fun buffer (j : ℕ) => do
      let row ← cint (((height : ℤ) - 1 - (j : ℤ)) * (width : ℤ))
      (List.range width).foldlM
        (fun buffer i => renderToBufferPixel (width : ℤ) bg colorBuffer row j i buffer) buffer)
    (fun j c => sel4 (let p := pixelIn width height colorBuffer j (c / 4)
                      compositePixel bg p.1 p.2.1 p.2.2.1 p.2.2.2) (c % 4))
    (by
      intro buf k hk hlen
      have hrow : (height - 1 - k) * width ≤ width * height := by
        rw [Nat.mul_comm width height]
        exact Nat.mul_le_mul_right _ (by omega)
      have hc : cint (((height : ℤ) - 1 - (k : ℤ)) * (width : ℤ))
          = some (((height - 1 - k) * width : ℕ) : ℤ) := by
        have := cint_natCast ((height - 1 - k) * width) (by omega)
        have e : (((height - 1 - k : ℕ)) : ℤ) = (height : ℤ) - 1 - k := by omega
        rw [Nat.cast_mul, e] at this
        rw [this, Nat.cast_mul, e]
      obtain ⟨r, hr, rlen, rin, rout⟩ :=
        renderToBufferRow_cells width height bg colorBuffer buf k hk hn hfb hlen
      refine ⟨r, ?_, rlen, ?_, ?_⟩
      · simp only [hc, Option.bind_eq_bind, Option.some_bind]
        exact hr
      · intro c hc4 hidx
        have h := rin (c / 4) (c % 4) (by omega) (Nat.mod_lt _ (by norm_num))
        have e : 4 * (k * width) + 4 * (c / 4) + c % 4 = 0 + 4 * width * k + c := by
          have : 4 * (k * width) = 4 * width * k := by ring
          omega
        rw [e] at h
        exact h
      · intro idx hidx
        have e : 4 * (k * width) = 4 * width * k := by ring
        exact rout idx (by omega))
    buffer hbuf height le_rfl
  refine ⟨r, ?_, rlen, ?_⟩
  · rw [renderToBufferLoop, Int.toNat_natCast, Int.toNat_natCast]
    exact hr
  · intro j c hj hc
    have h1 : 4 * width * (j + 1) ≤ 4 * width * height := Nat.mul_le_mul_left _ hj
    rw [Nat.mul_succ] at h1
    have e4 : 4 * width * height = 4 * (width * height) := by ring
    have := rin j c hj hc (by omega)
    simpa using this

/-- For sizes that are not negative and an image whose `4 * width * height`
bytes are counted inside `int`, `renderToBuffer` is defined and hands back a
buffer of that many bytes; byte `c` of its pixel `j * width + i` is
component `c` of the composited input pixel. -/
theorem renderToBufferBytes_cells (E : Engine) (w h : ℕ) (bg : Color4) (fb : List UChar)
    (h4 : 4 * w ≤ 2147483647) (hn : 4 * (w * h) ≤ 2147483647)
    (hfb : fb.length = 4 * (w * h)) :
    ∃ buf, renderToBufferBytes E (w : ℤ) (h : ℤ) bg fb = some (some buf)
      ∧ buf.length = 4 * (w * h)
      ∧ ∀ j i c, j < h → i < w → c < 4 →
          buf[4 * (j * w + i) + c]?
            = some (sel4 (let p := pixelIn w h fb j i
                          compositePixel bg p.1 p.2.1 p.2.2.1 p.2.2.2) c) := by
  have h1 : cint (4 * (w : ℤ)) = some (((4 * w : ℕ)) : ℤ) := by
    have := cint_natCast (4 * w) h4
    push_cast at this ⊢
    exact this
  have h2 : cint ((((4 * w : ℕ)) : ℤ) * (h : ℤ)) = some (((4 * (w * h) : ℕ)) : ℤ) := by
    have := cint_natCast (4 * (w * h)) hn
    have e : (((4 * (w * h) : ℕ)) : ℤ) = (((4 * w : ℕ)) : ℤ) * (h : ℤ) := by
      push_cast
      ring
    rw [← e]
    exact this
  have hm : malloc E (((4 * (w * h) : ℕ)) : ℤ)
      = some ((List.range (4 * (w * h))).map E.heap) := by
    rw [malloc, if_neg (by omega), Int.toNat_natCast]
  obtain ⟨r, hr, rlen, rin⟩ := renderToBufferLoop_cells w h bg fb
    ((List.range (4 * (w * h))).map E.heap) hn hfb (by simp)
  refine ⟨r, ?_, rlen, ?_⟩
  · simp only [renderToBufferBytes, h1, h2, hm, block, Option.getD_some, hr,
      Option.bind_eq_bind, Option.some_bind, Option.map_some']
  · intro j i c hj hi hc
    have h1 := rin j (4 * i + c) hj (by omega)
    have hd : (4 * i + c) / 4 = i := by omega
    have hm : (4 * i + c) % 4 = c := by omega
    rw [hd, hm] at h1
    have ei : 4 * (j * w + i) + c = 4 * w * j + (4 * i + c) := by
      have : 4 * (j * w + i) = 4 * w * j + 4 * i := by ring
      omega
    rw [ei]
    exact h1

/-- When the byte count `4 * width * height` is not a value of `int`,
`renderToBuffer` has no defined result. -/
theorem renderToBufferBytes_overflow (E : Engine) (w h : ℤ) (bg : Color4) (fb : List UChar)
    (h4 : inInt (4 * w)) (hn : ¬ inInt (4 * w * h)) :
    renderToBufferBytes E w h bg fb = none := by
  simp only [renderToBufferBytes, cint_of_inInt _ h4, cint_of_not_inInt _ hn,
    Option.bind_eq_bind, Option.some_bind, Option.none_bind]

/-- With a height that is not positive the loops of `renderToBuffer` do not
run, and the allocated block is handed back as it is. -/
theorem renderToBufferBytes_no_rows (E : Engine) (w h : ℤ) (bg : Color4) (fb : List UChar)
    (h4 : inInt (4 * w)) (hn : inInt (4 * w * h)) (hpos : 0 ≤ 4 * w * h) (hh : h ≤ 0) :
    renderToBufferBytes E w h bg fb
      = some (some ((List.range (4 * w * h).toNat).map E.heap)) := by
  have hz : h.toNat = 0 := Int.toNat_of_nonpos hh
  simp only [renderToBufferBytes, cint_of_inInt _ h4, cint_of_inInt _ hn, Option.bind_eq_bind,
    Option.some_bind, renderToBufferLoop, hz, List.range_zero, List.foldlM_nil, malloc,
    if_neg (not_lt.mpr hpos), block, Option.getD_some, Option.pure_def, Option.map_some']

/-- C8 (counterexample): a camera of width 16384 and height 32768 with a
framebuffer of `16384 * 32768` pixels that are all (255,255,255,255).  The
byte count `4 * width * height` is `2^31`, which is not a value of `int`:
the argument of `malloc` overflows and `renderToBuffer` has no defined result,
so it does not produce a buffer of `4 * w * h` bytes. -/
theorem renderToBuffer_overflows :
    (List.replicate (4 * 16384 * 32768) (255 : UChar)).length = 4 * 16384 * 32768
      ∧ (∀ p, p < 16384 * 32768 →
          (List.replicate (4 * 16384 * 32768) (255 : UChar))[4 * p + 3]? = some 255)
      ∧ ¬ inInt (4 * 16384 * 32768)
      ∧ renderToBufferBytes Engine.counting 16384 32768 ⟨0, 0, 0, 255⟩
          (List.replicate (4 * 16384 * 32768) 255) = none := by
  refine ⟨List.length_replicate _ _, ?_, ?_, ?_⟩
  · intro p hp
    rw [List.getElem?_replicate, if_pos (by omega)]
  · intro hin
    have := hin.2
    simp only [INT_MAX] at this
    omega
  · apply renderToBufferBytes_overflow
    · constructor
      · simp only [INT_MIN]
        omega
      · simp only [INT_MAX]
        omega
    · intro hin
      have := hin.2
      simp only [INT_MAX] at this
      omega

/-- C8 (amended): whenever `4 * w` and the byte count `4 * w * h` are values
of `int`, for a framebuffer of `w * h` RGBA pixels that all have alpha 255,
`renderToBuffer` produces a buffer of `4 * w * h` bytes, and its pixel
`j * w + i` has the R, G, B of framebuffer pixel `(h - 1 - j) * w + i` and
alpha 255. -/
theorem renderToBuffer_flips_in_range (E : Engine) (w h : ℤ) (bg : Color4) (fb : List UChar)
    (h4 : inInt (4 * w)) (hn : inInt (4 * w * h))
    (hlen : (fb.length : ℤ) = 4 * w * h)
    (hfull : ∀ p : ℕ, (p : ℤ) < w * h → fb[4 * p + 3]? = some 255) :
    ∃ buf : List UChar, renderToBufferBytes E w h bg fb = some (some buf)
      ∧ (buf.length : ℤ) = 4 * w * h
      ∧ ∀ j i out src : ℕ, (j : ℤ) < h → (i : ℤ) < w →
          (out : ℤ) = j * w + i → (src : ℤ) = (h - 1 - j) * w + i →
          ∃ r g b : UChar,
            (fb[4 * src]? = some r ∧ fb[4 * src + 1]? = some g ∧ fb[4 * src + 2]? = some b)
            ∧ buf[4 * out]? = some r ∧ buf[4 * out + 1]? = some g
            ∧ buf[4 * out + 2]? = some b ∧ buf[4 * out + 3]? = some 255 := by
  have hpos : 0 ≤ 4 * w * h := by
    rw [← hlen]
    exact Int.natCast_nonneg _
  rcases le_or_lt h 0 with hh | hh
  · refine ⟨_, renderToBufferBytes_no_rows E w h bg fb h4 hn hpos hh, ?_, ?_⟩
    · rw [List.length_map, List.length_range, Int.toNat_of_nonneg hpos]
    · intro j i out src hj
      have : (0 : ℤ) ≤ j := Int.natCast_nonneg j
      omega
  · have hw : 0 ≤ w := by
      by_contra hneg
      have h1 : w * h < 0 := mul_neg_of_neg_of_pos (not_le.mp hneg) hh
      have h2 : 4 * w * h = 4 * (w * h) := by ring
      omega
    lift w to ℕ using hw
    lift h to ℕ using le_of_lt hh
    have e4 : 4 * (w : ℤ) * (h : ℤ) = ((4 * (w * h) : ℕ) : ℤ) := by
      push_cast
      ring
    have hfb : fb.length = 4 * (w * h) := by
      rw [e4] at hlen
      exact_mod_cast hlen
    have hnn : 4 * (w * h) ≤ 2147483647 := by
      have := hn.2
      rw [e4] at this
      simp only [INT_MAX] at this
      omega
    have h4n : 4 * w ≤ 2147483647 := by
      have := h4.2
      simp only [INT_MAX] at this
      omega
    obtain ⟨buf, hbuf, blen, cells⟩ := renderToBufferBytes_cells E w h bg fb h4n hnn hfb
    refine ⟨buf, hbuf, by rw [blen, e4], ?_⟩
    intro j i out src hj hi hout hsrc
    have hj : j < h := by exact_mod_cast hj
    have hi : i < w := by exact_mod_cast hi
    have hout : out = j * w + i := by exact_mod_cast hout
    have hsrc : src = (h - 1 - j) * w + i := by
      have e : (((h - 1 - j : ℕ)) : ℤ) = (h : ℤ) - 1 - j := by omega
      rw [← e] at hsrc
      exact_mod_cast hsrc
    subst hout hsrc
    have hlt := flipped_index_lt w h j i hj hi
    have ea : 4 * ((h - 1 - j) * w + i) = 4 * ((h - 1 - j) * w) + 4 * i := by ring
    have halpha : fb.getD (4 * ((h - 1 - j) * w) + (4 * i + 3)) 0 = 255 := by
      apply getD_of_getElem_some
      have := hfull ((h - 1 - j) * w + i) (by exact_mod_cast hlt)
      rw [ea] at this
      rw [← this]
      congr 1
    have hpix : (let p := pixelIn w h fb j i
        compositePixel bg p.1 p.2.1 p.2.2.1 p.2.2.2)
        = (fb.getD (4 * ((h - 1 - j) * w) + (4 * i + 0)) 0,
           fb.getD (4 * ((h - 1 - j) * w) + (4 * i + 1)) 0,
           fb.getD (4 * ((h - 1 - j) * w) + (4 * i + 2)) 0, 255) := by
      simp only [pixelIn, halpha, compositePixel_alpha255]
    have hcell : ∀ c, c < 4 →
        buf[4 * (j * w + i) + c]?
          = some (sel4 (fb.getD (4 * ((h - 1 - j) * w) + (4 * i + 0)) 0,
              fb.getD (4 * ((h - 1 - j) * w) + (4 * i + 1)) 0,
              fb.getD (4 * ((h - 1 - j) * w) + (4 * i + 2)) 0, 255) c) := by
      intro c hc
      have h1 := cells j i c hj hi hc
      rw [hpix] at h1
      exact h1
    have hin : ∀ c, c < 4 → fb[4 * ((h - 1 - j) * w + i) + c]?
        = some (fb.getD (4 * ((h - 1 - j) * w) + (4 * i + c)) 0) := by
      intro c hc
      have ei : 4 * ((h - 1 - j) * w + i) + c = 4 * ((h - 1 - j) * w) + (4 * i + c) := by
        omega
      rw [ei]
      exact getElem_some_getD _ _ (by omega)
    have c0 := hcell 0 (by norm_num)
    have c1 := hcell 1 (by norm_num)
    have c2 := hcell 2 (by norm_num)
    have c3 := hcell 3 (by norm_num)
    have i0 := hin 0 (by norm_num)
    have i1 := hin 1 (by norm_num)
    have i2 := hin 2 (by norm_num)
    simp only [add_zero] at c0 i0
    refine ⟨_, _, _, ⟨i0, i1, i2⟩, ?_, ?_, ?_, ?_⟩
    · rw [c0]
      simp [sel4]
    · rw [c1]
      simp [sel4]
    · rw [c2]
      simp [sel4]
    · rw [c3]
      simp [sel4]

theorem renderToBuffer_flips_in_range_witness :
    inInt (4 * 1) ∧ inInt (4 * 1 * 2)
      ∧ ((([1, 2, 3, 255, 4, 5, 6, 255] : List UChar).length : ℤ) = 4 * 1 * 2)
      ∧ (∀ p : ℕ, (p : ℤ) < 1 * 2 →
          ([1, 2, 3, 255, 4, 5, 6, 255] : List UChar)[4 * p + 3]? = some 255)
      ∧ ∃ buf : List UChar,
          renderToBufferBytes Engine.counting 1 2 ⟨9, 8, 7, 6⟩ [1, 2, 3, 255, 4, 5, 6, 255]
            = some (some buf)
          ∧ (buf.length : ℤ) = 4 * 1 * 2
          ∧ ∃ r g b : UChar,
              (([1, 2, 3, 255, 4, 5, 6, 255] : List UChar)[4 * 1]? = some r
                ∧ ([1, 2, 3, 255, 4, 5, 6, 255] : List UChar)[4 * 1 + 1]? = some g
                ∧ ([1, 2, 3, 255, 4, 5, 6, 255] : List UChar)[4 * 1 + 2]? = some b)
              ∧ buf[4 * 0]? = some r ∧ buf[4 * 0 + 1]? = some g
              ∧ buf[4 * 0 + 2]? = some b ∧ buf[4 * 0 + 3]? = some 255 := by
  have h4 : inInt (4 * 1) := by decide
  have hn : inInt (4 * 1 * 2) := by decide
  have hl : ((([1, 2, 3, 255, 4, 5, 6, 255] : List UChar).length : ℤ) = 4 * 1 * 2) := by rfl
  have ho : ∀ p : ℕ, (p : ℤ) < 1 * 2 →
      ([1, 2, 3, 255, 4, 5, 6, 255] : List UChar)[4 * p + 3]? = some 255 := by
    intro p hp
    have hp2 : p < 2 := by omega
    interval_cases p <;> rfl
  obtain ⟨buf, h1, h2, h3⟩ := renderToBuffer_flips_in_range Engine.counting 1 2 ⟨9, 8, 7, 6⟩
    [1, 2, 3, 255, 4, 5, 6, 255] h4 hn hl ho
  exact ⟨h4, hn, hl, ho, buf, h1, h2,
    h3 0 0 0 1 (by norm_num) (by norm_num) (by norm_num) (by norm_num)⟩

/-! ## `saveAsPPM` -/

/-- The body of the inner loop of `saveAsPPM` at a position inside the
image, with offsets inside `int`: it is defined and writes the three blended
bytes of the pixel. -/
theorem saveAsPPMPixel_natCast (width height : ℕ) (bg : Color4)
    (colorBuffer rowOut : List UChar) (j i : ℕ) (hj : j < height) (hi : i < width)
    (h4 : 4 * width ≤ 2147483648)
    (hfb : colorBuffer.length = 4 * (width * height))
    (hrow : rowOut.length = 3 * width) :
    saveAsPPMPixel bg colorBuffer (((height - 1 - j) * width : ℕ) : ℤ) i rowOut
      = some (((rowOut.set (3 * i + 0)
            (let p := pixelIn width height colorBuffer j i
             ppmPixel bg p.1 p.2.1 p.2.2.1 p.2.2.2).1).set (3 * i + 1)
            (let p := pixelIn width height colorBuffer j i
             ppmPixel bg p.1 p.2.1 p.2.2.1 p.2.2.2).2.1).set (3 * i + 2)
            (let p := pixelIn width height colorBuffer j i
             ppmPixel bg p.1 p.2.1 p.2.2.1 p.2.2.2).2.2) := by
  have hsrc := flipped_index_lt width height j i hj hi
  have r0 := rowByte_natCast colorBuffer ((height - 1 - j) * width) i 0 (by omega) (by omega)
  have r1 := rowByte_natCast colorBuffer ((height - 1 - j) * width) i 1 (by omega) (by omega)
  have r2 := rowByte_natCast colorBuffer ((height - 1 - j) * width) i 2 (by omega) (by omega)
  have r3 := rowByte_natCast colorBuffer ((height - 1 - j) * width) i 3 (by omega) (by omega)
  simp only [Nat.cast_ofNat, Nat.cast_zero, Nat.cast_one] at r0 r1 r2 r3
  have p0 := fun (b : List UChar) (v : UChar) (hb : b.length = 3 * width) =>
    putByte_natCast b 3 i 0 v (by omega) (by omega)
  have p1 := fun (b : List UChar) (v : UChar) (hb : b.length = 3 * width) =>
    putByte_natCast b 3 i 1 v (by omega) (by omega)
  have p2 := fun (b : List UChar) (v : UChar) (hb : b.length = 3 * width) =>
    putByte_natCast b 3 i 2 v (by omega) (by omega)
  simp only [Nat.cast_ofNat, Nat.cast_zero, Nat.cast_one] at p0 p1 p2
  simp only [saveAsPPMPixel, r0, r1, r2, r3, Option.bind_eq_bind, Option.some_bind, pixelIn]
  rw [p0 _ _ hrow, Option.some_bind, p1 _ _ (by simp [hrow]), Option.some_bind,
    p2 _ _ (by simp [hrow])]

/-- The inner loop of `saveAsPPM` for output row `j` is defined, fills the
`width` triples of the row buffer and keeps its length. -/
theorem saveAsPPMRow_cells (width height : ℕ) (bg : Color4) (colorBuffer rowOut : List UChar)
    (j : ℕ) (hj : j < height) (h4 : 4 * width ≤ 2147483648)
    (hr : (height - 1) * width ≤ 2147483647)
    (hfb : colorBuffer.length = 4 * (width * height))
    (hrow : rowOut.length = 3 * width) :
    ∃ r, saveAsPPMRow (width : ℤ) (height : ℤ) bg colorBuffer j rowOut = some r
      ∧ r.length = 3 * width
      ∧ ∀ i c, i < width → c < 3 →
          r[3 * i + c]?
            = some (sel3 (let p := pixelIn width height colorBuffer j i
                          ppmPixel bg p.1 p.2.1 p.2.2.1 p.2.2.2) c) := by
  have hle : (height - 1 - j) * width ≤ (height - 1) * width :=
    Nat.mul_le_mul_right _ (by omega)
  have hc : cint (((height : ℤ) - 1 - (j : ℤ)) * (width : ℤ))
      = some (((height - 1 - j) * width : ℕ) : ℤ) := by
    have := cint_natCast ((height - 1 - j) * width) (by omega)
    have e : (((height - 1 - j : ℕ)) : ℤ) = (height : ℤ) - 1 - j := by omega
    rw [Nat.cast_mul, e] at this
    rw [this, Nat.cast_mul, e]
  obtain ⟨r, hr, rlen, rin, -⟩ := foldlM_blocks 3 0 (3 * width) width
    (fun rowOut i =>
      saveAsPPMPixel bg colorBuffer (((height - 1 - j) * width : ℕ) : ℤ) i rowOut)
    (fun i c => sel3 (let p := pixelIn width height colorBuffer j i
                      ppmPixel bg p.1 p.2.1 p.2.2.1 p.2.2.2) c)
    (by
      intro buf k hk hlen
      refine ⟨_, saveAsPPMPixel_natCast width height bg colorBuffer buf j k hj hk h4 hfb hlen,
        by simp [hlen], ?_, ?_⟩
      · intro c hc hidx
        simp only [sel3, List.getElem?_set, List.length_set]
        interval_cases c
        · simp
          omega
        · simp
          omega
        · simp
          omega
      · intro idx hidx
        simp only [List.getElem?_set, List.length_set]
        rw [if_neg (by omega), if_neg (by omega), if_neg (by omega)])
    rowOut hrow width le_rfl
  refine ⟨r, ?_, rlen, ?_⟩
  · simp only [saveAsPPMRow, hc, Option.bind_eq_bind, Option.some_bind, Int.toNat_natCast]
    exact hr
  · intro i c hi hc3
    have := rin i c hi hc3 (by omega)
    simpa using this

/-- Writing a full row buffer appends it to the file. -/
theorem fwriteRow_full (width : ℕ) (rowOut file : List UChar) (h3 : 3 * width ≤ 2147483647)
    (hrow : rowOut.length = 3 * width) :
    fwriteRow (width : ℤ) rowOut file = some (file ++ rowOut) := by
  have h1 : cint (3 * (width : ℤ)) = some (((3 * width : ℕ)) : ℤ) := by
    have := cint_natCast (3 * width) h3
    push_cast at this ⊢
    exact this
  simp only [fwriteRow, h1, Option.bind_eq_bind, Option.some_bind]
  rw [if_pos ⟨Int.natCast_nonneg _, by rw [hrow]⟩, Int.toNat_natCast,
    List.take_of_length_le (by rw [hrow])]

/-- After `n` rows the file holds what it held before followed by `n` rows of
`3 * width` bytes each, row `j` being the composited framebuffer row
`height - 1 - j`. -/
theorem saveAsPPMLoop_rows (width height : ℕ) (bg : Color4) (colorBuffer : List UChar)
    (rowOut file : List UChar) (h3 : 3 * width ≤ 2147483647)
    (hpos : 0 < height → 4 * width ≤ 2147483648 ∧ (height - 1) * width ≤ 2147483647)
    (hfb : colorBuffer.length = 4 * (width * height))
    (hrow : rowOut.length = 3 * width) (n : ℕ) (hn : n ≤ height) :
    ∃ rowOut1 body : List UChar,
      (List.range n).foldlM (fun (st : List UChar × List UChar) (j : ℕ) => do
          let rowOut ← saveAsPPMRow (width : ℤ) (height : ℤ) bg colorBuffer j st.1
          let file ← fwriteRow (width : ℤ) rowOut st.2
          some (rowOut, file)) (rowOut, file) = some (rowOut1, file ++ body)
      ∧ rowOut1.length = 3 * width
      ∧ body.length = 3 * width * n
      ∧ ∀ j k, j < n → k < 3 * width →
          body[3 * width * j + k]?
            = some (sel3 (let p := pixelIn width height colorBuffer j (k / 3)
                          ppmPixel bg p.1 p.2.1 p.2.2.1 p.2.2.2) (k % 3)) := by
  induction n with
  | zero => exact ⟨rowOut, [], by simp, hrow, by simp, by intro j k hj; omega⟩
  | succ n ih =>
    obtain ⟨r, body, hfold, hr, hbody, hcells⟩ := ih (by omega)
    obtain ⟨h4, hmul⟩ := hpos (by omega)
    obtain ⟨r1, hr1, rlen, rcells⟩ :=
      saveAsPPMRow_cells width height bg colorBuffer r n (by omega) h4 hmul hfb hr
    refine ⟨r1, body ++ r1, ?_, rlen, ?_, ?_⟩
    · rw [List.range_succ, List.foldlM_append, hfold]
      simp [hr1, fwriteRow_full width r1 (file ++ body) h3 rlen, List.append_assoc]
    · rw [List.length_append, hbody, rlen, Nat.mul_succ]
    · intro j k hj hk
      rcases Nat.lt_succ_iff_lt_or_eq.mp hj with hlt | rfl
      · have h1 : 3 * width * (j + 1) ≤ 3 * width * n := Nat.mul_le_mul_left _ hlt
        rw [Nat.mul_succ] at h1
        rw [List.getElem?_append_left (by rw [hbody]; omega)]
        exact hcells j k hlt hk
      · rw [List.getElem?_append_right (by rw [hbody]; omega), hbody]
        have e : 3 * width * j + k - 3 * width * j = 3 * (k / 3) + k % 3 := by omega
        rw [e]
        exact rcells (k / 3) (k % 3) (by omega) (Nat.mod_lt _ (by norm_num))

/-- For sizes that are not negative and offsets inside `int`, `saveAsPPM` is
defined and writes the header, `3 * w * h` bytes and a newline; byte `c` of
the pixel at output row `j`, column `i` is component `c` of the blend of the
input pixel. -/
theorem saveAsPPMBytes_cells (E : Engine) (w h : ℕ) (bg : Color4) (fb : List UChar)
    (h3 : 3 * w ≤ 2147483647)
    (hpos : 0 < h → 4 * w ≤ 2147483648 ∧ (h - 1) * w ≤ 2147483647)
    (hfb : fb.length = 4 * (w * h)) :
    ∃ body : List UChar,
      saveAsPPMBytes E (w : ℤ) (h : ℤ) bg fb
        = some (strBytes (ppmHeader (w : ℤ) (h : ℤ)) ++ body ++ [10])
      ∧ body.length = 3 * (w * h)
      ∧ ∀ j i c, j < h → i < w → c < 3 →
          body[3 * (j * w + i) + c]?
            = some (sel3 (let p := pixelIn w h fb j i
                          ppmPixel bg p.1 p.2.1 p.2.2.1 p.2.2.2) c) := by
  have h1 : cint (3 * (w : ℤ)) = some (((3 * w : ℕ)) : ℤ) := by
    have := cint_natCast (3 * w) h3
    push_cast at this ⊢
    exact this
  have hm : malloc E (((3 * w : ℕ)) : ℤ) = some ((List.range (3 * w)).map E.heap) := by
    rw [malloc, if_neg (by omega), Int.toNat_natCast]
  obtain ⟨r, body, hfold, -, hbody, hcells⟩ :=
    saveAsPPMLoop_rows w h bg fb ((List.range (3 * w)).map E.heap)
      (strBytes (ppmHeader (w : ℤ) (h : ℤ))) h3 hpos hfb (by simp) h le_rfl
  refine ⟨body, ?_, by rw [hbody]; ring, ?_⟩
  · simp only [Option.bind_eq_bind] at hfold
    simp only [saveAsPPMBytes, h1, hm, block, Option.getD_some, saveAsPPMLoop,
      Int.toNat_natCast, hfold, Option.bind_eq_bind, Option.some_bind]
    rfl
  · intro j i c hj hi hc
    have hk := hcells j (3 * i + c) hj (by omega)
    have hd : (3 * i + c) / 3 = i := by omega
    have hm : (3 * i + c) % 3 = c := by omega
    rw [hd, hm] at hk
    have ei : 3 * (j * w + i) + c = 3 * w * j + (3 * i + c) := by
      have : 3 * (j * w + i) = 3 * w * j + 3 * i := by ring
      omega
    rw [ei]
    exact hk

/-- A loop one of whose iterations is undefined whatever the state is
undefined. -/
theorem foldlM_undefined {β : Type} (f : β → ℕ → Option β) (k : ℕ) (hf : ∀ b, f b k = none)
    (n : ℕ) (hk : k < n) (b : β) : (List.range n).foldlM f b = none := by
  induction n with
  | zero => omega
  | succ n ih =>
    rw [List.range_succ, List.foldlM_append]
    rcases Nat.lt_succ_iff_lt_or_eq.mp hk with hlt | rfl
    · rw [ih hlt]
      rfl
    · cases (List.range k).foldlM f b with
      | none => rfl
      | some b1 => simp [hf b1]

/-- When `3 * width` is not a value of `int`, `saveAsPPM` has no defined
result. -/
theorem saveAsPPMBytes_overflow_size (E : Engine) (w h : ℤ) (bg : Color4) (fb : List UChar)
    (h3 : ¬ inInt (3 * w)) : saveAsPPMBytes E w h bg fb = none := by
  simp only [saveAsPPMBytes, cint_of_not_inInt _ h3, Option.bind_eq_bind, Option.none_bind]

/-- When the offset `(height-1)*width` of the first row read is not a value
of `int`, `saveAsPPM` has no defined result. -/
theorem saveAsPPMBytes_overflow_row (E : Engine) (w h : ℤ) (bg : Color4) (fb : List UChar)
    (hh : 0 < h) (hrow : ¬ inInt ((h - 1) * w)) : saveAsPPMBytes E w h bg fb = none := by
  have hstep : ∀ st : List UChar × List UChar,
      (do
        let rowOut ← saveAsPPMRow w h bg fb 0 st.1
        let file ← fwriteRow w rowOut st.2
        some (rowOut, file)) = none := by
    intro st
    have e : (h - 1 - ((0 : ℕ) : ℤ)) * w = (h - 1) * w := by simp
    simp only [saveAsPPMRow, e, cint_of_not_inInt _ hrow, Option.bind_eq_bind,
      Option.none_bind]
  have hloop : ∀ rowOut file, saveAsPPMLoop w h bg fb rowOut file = none := by
    intro rowOut file
    exact foldlM_undefined _ 0 hstep h.toNat (by omega) _
  cases hc : cint (3 * w) with
  | none => simp only [saveAsPPMBytes, hc, Option.bind_eq_bind, Option.none_bind]
  | some n3 =>
    simp only [saveAsPPMBytes, hc, hloop, Option.bind_eq_bind, Option.some_bind,
      Option.none_bind]

/-- C9 (counterexample): for a camera of width -2 and height -3, `saveAsPPM`
writes the header `P6\n-2 -3\n255\n` and the final newline with no pixel byte
between them, where `3 * w * h` is 18.  For width 715827883 and height 1 the
size `3 * width` of the row buffer, and for width 65536 and height 32769 the
offset `(height-1-0) * width` of the first row read, is not a value of `int`:
`saveAsPPM` has no defined result, whatever the framebuffer holds. -/
theorem saveAsPPM_out_of_range :
    (∀ fb, saveAsPPMBytes Engine.counting (-2) (-3) ⟨0, 0, 0, 255⟩ fb
        = some (strBytes "P6\n-2 -3\n255\n" ++ [] ++ [10]))
      ∧ 3 * (-2 : ℤ) * (-3) = 18
      ∧ (¬ inInt (3 * 715827883)
          ∧ ∀ fb, saveAsPPMBytes Engine.counting 715827883 1 ⟨0, 0, 0, 255⟩ fb = none)
      ∧ (¬ inInt ((32769 - 1 - 0) * 65536)
          ∧ ∀ fb, saveAsPPMBytes Engine.counting 65536 32769 ⟨0, 0, 0, 255⟩ fb = none) := by
  have ha : ¬ inInt (3 * 715827883) := by
    intro hin
    have := hin.2
    simp only [INT_MAX] at this
    omega
  have hb : ¬ inInt ((32769 - 1) * 65536) := by
    intro hin
    have := hin.2
    simp only [INT_MAX] at this
    omega
  refine ⟨?_, by norm_num, ⟨ha, ?_⟩, ⟨by simpa using hb, ?_⟩⟩
  · intro fb
    rfl
  · intro fb
    exact saveAsPPMBytes_overflow_size _ _ _ _ _ ha
  · intro fb
    exact saveAsPPMBytes_overflow_row _ _ _ _ _ (by norm_num) hb

/-- C9 (amended): for a width `w` and a height `h` that are not negative and
keep the `int` expressions of the function inside `int` (`3 * w`, and for
`0 < h` also `4 * w - 1` and `(h - 1) * w`, at most `INT_MAX`), and a mapped
framebuffer of `w * h` RGBA pixels, `saveAsPPM` writes the header
`P6\n<w> <h>\n255\n` (decimal sizes), then exactly `3 * w * h` bytes, then a
single newline.  Byte `c` of the pixel at output row `j`, column `i` is
component `c` of the blend of framebuffer pixel `(h - 1 - j) * w + i`: output
row `j` comes from framebuffer row `h - 1 - j`. -/
theorem saveAsPPM_format_in_range (E : Engine) (w h : ℤ) (bg : Color4) (fb : List UChar)
    (hw : 0 ≤ w) (hh : 0 ≤ h) (h3 : 3 * w ≤ INT_MAX)
    (hpos : 0 < h → 4 * w - 1 ≤ INT_MAX ∧ (h - 1) * w ≤ INT_MAX)
    (hlen : (fb.length : ℤ) = 4 * w * h) :
    ∃ body : List UChar,
      saveAsPPMBytes E w h bg fb
        = some (strBytes ("P6\n" ++ toString w ++ " " ++ toString h ++ "\n255\n")
            ++ body ++ [10])
      ∧ (body.length : ℤ) = 3 * w * h
      ∧ ∀ j i out src c : ℕ, ∀ p0 p1 p2 p3 : UChar, (j : ℤ) < h → (i : ℤ) < w → c < 3 →
          (out : ℤ) = j * w + i → (src : ℤ) = (h - 1 - j) * w + i →
          fb[4 * src]? = some p0 → fb[4 * src + 1]? = some p1 →
          fb[4 * src + 2]? = some p2 → fb[4 * src + 3]? = some p3 →
          body[3 * out + c]? = some (sel3 (ppmPixel bg p0 p1 p2 p3) c) := by
  lift w to ℕ using hw
  lift h to ℕ using hh
  have e4 : 4 * (w : ℤ) * (h : ℤ) = ((4 * (w * h) : ℕ) : ℤ) := by
    push_cast
    ring
  have hfb : fb.length = 4 * (w * h) := by
    rw [e4] at hlen
    exact_mod_cast hlen
  have h3n : 3 * w ≤ 2147483647 := by
    simp only [INT_MAX] at h3
    omega
  have hposn : 0 < h → 4 * w ≤ 2147483648 ∧ (h - 1) * w ≤ 2147483647 := by
    intro h0
    obtain ⟨ha, hb⟩ := hpos (by exact_mod_cast h0)
    have e : (((h - 1 : ℕ)) : ℤ) = (h : ℤ) - 1 := by omega
    rw [← e] at hb
    simp only [INT_MAX] at ha hb
    constructor
    · omega
    · exact_mod_cast hb
  obtain ⟨body, hbody, blen, cells⟩ := saveAsPPMBytes_cells E w h bg fb h3n hposn hfb
  refine ⟨body, hbody, ?_, ?_⟩
  · rw [blen]
    push_cast
    ring
  · intro j i out src c p0 p1 p2 p3 hj hi hc hout hsrc h0 h1 h2 h3
    have hj : j < h := by exact_mod_cast hj
    have hi : i < w := by exact_mod_cast hi
    have hout : out = j * w + i := by exact_mod_cast hout
    have hsrc : src = (h - 1 - j) * w + i := by
      have e : (((h - 1 - j : ℕ)) : ℤ) = (h : ℤ) - 1 - j := by omega
      rw [← e] at hsrc
      exact_mod_cast hsrc
    subst hout hsrc
    have ea : 4 * ((h - 1 - j) * w + i) = 4 * ((h - 1 - j) * w) + 4 * i := by ring
    rw [ea] at h0 h1 h2 h3
    have hp : pixelIn w h fb j i = (p0, p1, p2, p3) := by
      simp only [pixelIn, add_zero]
      rw [getD_of_getElem_some _ _ _ h0,
        getD_of_getElem_some _ _ _ (by rw [← h1]; congr 1),
        getD_of_getElem_some _ _ _ (by rw [← h2]; congr 1),
        getD_of_getElem_some _ _ _ (by rw [← h3]; congr 1)]
    have hk := cells j i c hj hi hc
    rw [hp] at hk
    exact hk

theorem saveAsPPM_format_in_range_witness :
    (0 : ℤ) ≤ 1 ∧ (0 : ℤ) ≤ 2 ∧ 3 * 1 ≤ INT_MAX
      ∧ ((0 : ℤ) < 2 → 4 * 1 - 1 ≤ INT_MAX ∧ (2 - 1) * 1 ≤ INT_MAX)
      ∧ ((([1, 2, 3, 255, 4, 5, 6, 255] : List UChar).length : ℤ) = 4 * 1 * 2)
      ∧ ∃ body : List UChar,
          saveAsPPMBytes Engine.counting 1 2 ⟨9, 8, 7, 6⟩ [1, 2, 3, 255, 4, 5, 6, 255]
            = some (strBytes ("P6\n" ++ toString (1 : ℤ) ++ " " ++ toString (2 : ℤ) ++ "\n255\n")
                ++ body ++ [10])
          ∧ (body.length : ℤ) = 3 * 1 * 2
          ∧ body[3 * 0 + 0]? = some (sel3 (ppmPixel ⟨9, 8, 7, 6⟩ 4 5 6 255) 0) := by
  have h3 : (3 : ℤ) * 1 ≤ INT_MAX := by decide
  have hp : (0 : ℤ) < 2 → 4 * 1 - 1 ≤ INT_MAX ∧ (2 - 1) * 1 ≤ INT_MAX := fun _ => by decide
  have hl : ((([1, 2, 3, 255, 4, 5, 6, 255] : List UChar).length : ℤ) = 4 * 1 * 2) := by rfl
  obtain ⟨body, h1, h2, hc⟩ := saveAsPPM_format_in_range Engine.counting 1 2 ⟨9, 8, 7, 6⟩
    [1, 2, 3, 255, 4, 5, 6, 255] (by norm_num) (by norm_num) h3 hp hl
  exact ⟨by norm_num, by norm_num, h3, hp, hl, body, h1, h2,
    hc 0 0 0 1 0 4 5 6 255 (by norm_num) (by norm_num) (by norm_num) (by norm_num)
      (by norm_num) (by rfl) (by rfl) (by rfl) (by rfl)⟩

/-! ## Configuration defaults -/

/-- `HasMember` and `operator[]` agree: on an object a name is either absent
or bound to its first value; on anything else the assertion fails. -/
theorem hasMember_cases (json : JsonValue) (name : String) :
    json.HasMember name = none
      ∨ (json.HasMember name = some false ∧ json.member name = none)
      ∨ (json.HasMember name = some true ∧ ∃ v, json.member name = some v) := by
  cases json with
  | object ms =>
    rcases hfind : (ms.find? fun m => m.1 = name) with _ | m
    · right
      left
      simp only [JsonValue.HasMember, JsonValue.member, hfind]
      exact ⟨rfl, rfl⟩
    · right
      right
      simp only [JsonValue.HasMember, JsonValue.member, hfind]
      exact ⟨rfl, m.2, rfl⟩
  | _ =>
    left
    rfl

theorem roundHalfEven_eq (q : ℚ) (n : ℤ) (h1 : (n : ℚ) - 1 / 2 < q) (h2 : q < (n : ℚ) + 1 / 2) :
    roundHalfEven q = n := by
  have hf1 : ((⌊q⌋ : ℤ) : ℚ) ≤ q := Int.floor_le q
  have hf2 : q < ((⌊q⌋ : ℤ) : ℚ) + 1 := Int.lt_floor_add_one q
  unfold roundHalfEven
  simp only
  split_ifs with c1 c2 c3
  · have a1 : ((⌊q⌋ : ℤ) : ℚ) < (n : ℚ) + 1 := by linarith
    have a2 : (n : ℚ) < ((⌊q⌋ : ℤ) : ℚ) + 1 := by linarith
    have b1 : ⌊q⌋ < n + 1 := by exact_mod_cast a1
    have b2 : n < ⌊q⌋ + 1 := by exact_mod_cast a2
    omega
  · have a1 : ((⌊q⌋ : ℤ) : ℚ) < (n : ℚ) := by linarith
    have a2 : (n : ℚ) < ((⌊q⌋ : ℤ) : ℚ) + 2 := by linarith
    have b1 : ⌊q⌋ < n := by exact_mod_cast a1
    have b2 : n < ⌊q⌋ + 2 := by exact_mod_cast a2
    omega
  · have e : q - ((⌊q⌋ : ℤ) : ℚ) = 1 / 2 := le_antisymm (not_lt.mp c2) (not_lt.mp c1)
    have a1 : ((⌊q⌋ : ℤ) : ℚ) < (n : ℚ) := by linarith
    have a2 : (n : ℚ) < ((⌊q⌋ : ℤ) : ℚ) + 1 := by linarith
    have b1 : ⌊q⌋ < n := by exact_mod_cast a1
    have b2 : n < ⌊q⌋ + 1 := by exact_mod_cast a2
    omega
  · have e : q - ((⌊q⌋ : ℤ) : ℚ) = 1 / 2 := le_antisymm (not_lt.mp c2) (not_lt.mp c1)
    have a1 : ((⌊q⌋ : ℤ) : ℚ) < (n : ℚ) := by linarith
    have a2 : (n : ℚ) < ((⌊q⌋ : ℤ) : ℚ) + 1 := by linarith
    have b1 : ⌊q⌋ < n := by exact_mod_cast a1
    have b2 : n < ⌊q⌋ + 1 := by exact_mod_cast a2
    omega

/-- The rounding of a positive `q` in the binade `[2 ^ e, 2 ^ (e + 1))` is the
multiple `n` of the unit in the last place that lies within half a unit. -/
theorem roundBinary_eq (p : ℕ) (emin : ℤ) (q : ℚ) (e n : ℤ) (hpos : 0 < q)
    (hlo : (2 : ℚ) ^ e ≤ q) (hhi : q < (2 : ℚ) ^ (e + 1)) (hemin : emin ≤ e)
    (h1 : (n : ℚ) - 1 / 2 < q / (2 : ℚ) ^ (e - ((p : ℤ) - 1)))
    (h2 : q / (2 : ℚ) ^ (e - ((p : ℤ) - 1)) < (n : ℚ) + 1 / 2) :
    roundBinary p emin q = (n : ℚ) * (2 : ℚ) ^ (e - ((p : ℤ) - 1)) := by
  have hlog : Int.log 2 |q| = e := by
    rw [abs_of_pos hpos]
    apply le_antisymm
    · have := (Int.lt_zpow_iff_log_lt (b := 2) (by norm_num) hpos).mp
        (by exact_mod_cast hhi : q < ((2 : ℕ) : ℚ) ^ (e + 1))
      omega
    · exact (Int.zpow_le_iff_le_log (b := 2) (by norm_num) hpos).mp
        (by exact_mod_cast hlo : ((2 : ℕ) : ℚ) ^ e ≤ q)
  unfold roundBinary
  rw [if_neg hpos.ne']
  simp only [hlog, max_eq_left hemin]
  rw [roundHalfEven_eq _ n h1 h2]

/-! ## Rounding a value that is already representable -/

theorem roundHalfEven_bounds (q : ℚ) : ⌊q⌋ ≤ roundHalfEven q ∧ roundHalfEven q ≤ ⌊q⌋ + 1 := by
  unfold roundHalfEven
  simp only
  split_ifs <;> constructor <;> omega

/-- A value `n * 2 ^ k` with fewer than `p` significant bits and an exponent
the format reaches is left as it is by the rounding. -/
theorem roundBinary_fixed (p : ℕ) (emin : ℤ) (n : ℕ) (k : ℤ) (hn : n < 2 ^ p)
    (hk : emin - ((p : ℤ) - 1) ≤ k) :
    roundBinary p emin ((n : ℚ) * (2 : ℚ) ^ k) = (n : ℚ) * (2 : ℚ) ^ k := by
  rcases Nat.eq_zero_or_pos n with h0 | hpos
  · subst h0
    simp [roundBinary]
  · have h2k : (0 : ℚ) < (2 : ℚ) ^ k := zpow_pos (by norm_num) k
    have hn0 : (0 : ℚ) < (n : ℚ) := by exact_mod_cast hpos
    have hx : (0 : ℚ) < (n : ℚ) * (2 : ℚ) ^ k := mul_pos hn0 h2k
    have hlt : (n : ℚ) * (2 : ℚ) ^ k < ((2 : ℕ) : ℚ) ^ ((p : ℤ) + k) := by
      have h1 : (n : ℚ) < (2 : ℚ) ^ (p : ℤ) := by
        rw [zpow_natCast]
        exact_mod_cast hn
      have h2 : ((2 : ℕ) : ℚ) ^ ((p : ℤ) + k) = (2 : ℚ) ^ (p : ℤ) * (2 : ℚ) ^ k := by
        rw [Nat.cast_ofNat, zpow_add₀ (by norm_num)]
      rw [h2]
      exact mul_lt_mul_of_pos_right h1 h2k
    have hlog : Int.log 2 ((n : ℚ) * (2 : ℚ) ^ k) < (p : ℤ) + k :=
      (Int.lt_zpow_iff_log_lt (b := 2) (by norm_num) hx).mp hlt
    have he : max (Int.log 2 |(n : ℚ) * (2 : ℚ) ^ k|) emin - ((p : ℤ) - 1) ≤ k := by
      rw [abs_of_pos hx]
      have := max_le (a := Int.log 2 ((n : ℚ) * (2 : ℚ) ^ k)) (b := emin)
        (c := k + ((p : ℤ) - 1)) (by omega) (by omega)
      omega
    obtain ⟨d, hd⟩ : ∃ d : ℕ,
        k = max (Int.log 2 |(n : ℚ) * (2 : ℚ) ^ k|) emin - ((p : ℤ) - 1) + (d : ℤ) :=
      ⟨(k - (max (Int.log 2 |(n : ℚ) * (2 : ℚ) ^ k|) emin - ((p : ℤ) - 1))).toNat, by omega⟩
    unfold roundBinary
    rw [if_neg hx.ne']
    simp only
    generalize max (Int.log 2 |(n : ℚ) * (2 : ℚ) ^ k|) emin - ((p : ℤ) - 1) = u at hd he ⊢
    have hu : (0 : ℚ) < (2 : ℚ) ^ u := zpow_pos (by norm_num) u
    have hsplit : (2 : ℚ) ^ k = (2 : ℚ) ^ u * (2 : ℚ) ^ d := by
      rw [hd, zpow_add₀ (by norm_num), zpow_natCast]
    have hdiv : (n : ℚ) * (2 : ℚ) ^ k / (2 : ℚ) ^ u = (((n * 2 ^ d : ℕ) : ℤ) : ℚ) := by
      rw [hsplit]
      push_cast
      field_simp
      ring
    rw [hdiv, roundHalfEven_intCast, hsplit]
    push_cast
    ring

/-- The rounding of a non-negative value is `n * 2 ^ k` with fewer than `p`
significant bits and an exponent the format reaches. -/
theorem roundBinary_repr (p : ℕ) (hp : 1 ≤ p) (emin : ℤ) (q : ℚ) (hq : 0 ≤ q) :
    ∃ n : ℕ, ∃ k : ℤ, n < 2 ^ p ∧ emin - ((p : ℤ) - 1) ≤ k
      ∧ roundBinary p emin q = (n : ℚ) * (2 : ℚ) ^ k := by
  rcases eq_or_lt_of_le hq with h0 | hpos
  · refine ⟨0, emin - ((p : ℤ) - 1), by positivity, le_refl _, ?_⟩
    rw [← h0, roundBinary_zero]
    simp
  · have habs : |q| = q := abs_of_pos hpos
    have hemin : emin ≤ max (Int.log 2 |q|) emin := le_max_right _ _
    have hlogle : Int.log 2 |q| ≤ max (Int.log 2 |q|) emin := le_max_left _ _
    unfold roundBinary
    rw [if_neg hpos.ne']
    simp only
    generalize max (Int.log 2 |q|) emin = e at hemin hlogle ⊢
    have hu : (0 : ℚ) < (2 : ℚ) ^ (e - ((p : ℤ) - 1)) := zpow_pos (by norm_num) _
    have hqlt : q < (2 : ℚ) ^ (e + 1) := by
      have h1 : q < ((2 : ℕ) : ℚ) ^ (Int.log 2 q + 1) :=
        Int.lt_zpow_succ_log_self (by norm_num) q
      rw [habs] at hlogle
      have h2 : ((2 : ℕ) : ℚ) ^ (Int.log 2 q + 1) ≤ (2 : ℚ) ^ (e + 1) := by
        rw [Nat.cast_ofNat]
        exact zpow_le_zpow_right₀ (by norm_num) (by omega)
      exact lt_of_lt_of_le h1 h2
    have hdivlt : q / (2 : ℚ) ^ (e - ((p : ℤ) - 1)) < (2 : ℚ) ^ p := by
      rw [div_lt_iff₀ hu]
      have : (2 : ℚ) ^ p * (2 : ℚ) ^ (e - ((p : ℤ) - 1)) = (2 : ℚ) ^ (e + 1) := by
        rw [← zpow_natCast, ← zpow_add₀ (by norm_num)]
        congr 1
        ring
      rw [this]
      exact hqlt
    have hdiv0 : 0 ≤ q / (2 : ℚ) ^ (e - ((p : ℤ) - 1)) := div_nonneg hq hu.le
    obtain ⟨hb1, hb2⟩ := roundHalfEven_bounds (q / (2 : ℚ) ^ (e - ((p : ℤ) - 1)))
    have hfl0 : 0 ≤ ⌊q / (2 : ℚ) ^ (e - ((p : ℤ) - 1))⌋ := Int.floor_nonneg.mpr hdiv0
    have hfllt : ⌊q / (2 : ℚ) ^ (e - ((p : ℤ) - 1))⌋ < (2 : ℤ) ^ p := by
      rw [Int.floor_lt]
      push_cast
      exact hdivlt
    generalize roundHalfEven (q / (2 : ℚ) ^ (e - ((p : ℤ) - 1))) = m at hb1 hb2 ⊢
    have hm0 : 0 ≤ m := le_trans hfl0 hb1
    have hmle : m ≤ (2 : ℤ) ^ p := by omega
    lift m to ℕ using hm0
    have hmle2 : m ≤ 2 ^ p := by exact_mod_cast hmle
    rcases Nat.lt_or_eq_of_le hmle2 with hlt | heq
    · exact ⟨m, e - ((p : ℤ) - 1), hlt, by omega, by push_cast; rfl⟩
    · refine ⟨2 ^ (p - 1), e - ((p : ℤ) - 1) + 1,
        Nat.pow_lt_pow_right (by norm_num) (by omega), by omega, ?_⟩
      rw [heq]
      obtain ⟨p1, rfl⟩ : ∃ p1, p = p1 + 1 := ⟨p - 1, by omega⟩
      rw [zpow_add₀ (by norm_num)]
      push_cast
      simp only [Nat.add_sub_cancel, pow_succ]
      ring

/-- Rounding to a format and then to one that is at least as wide leaves the
first rounding. -/
theorem roundBinary_roundBinary (p p1 : ℕ) (emin emin1 : ℤ) (hp : 1 ≤ p) (hpp : p ≤ p1)
    (he : emin1 ≤ emin) (q : ℚ) (hq : 0 ≤ q) :
    roundBinary p1 emin1 (roundBinary p emin q) = roundBinary p emin q := by
  obtain ⟨n, k, hn, hk, hr⟩ := roundBinary_repr p hp emin q hq
  rw [hr]
  apply roundBinary_fixed
  · exact lt_of_lt_of_le hn (Nat.pow_le_pow_right (by norm_num) hpp)
  · have : (p : ℤ) ≤ (p1 : ℤ) := by exact_mod_cast hpp
    omega

theorem roundBinary_nonneg (p : ℕ) (hp : 1 ≤ p) (emin : ℤ) (q : ℚ) (hq : 0 ≤ q) :
    0 ≤ roundBinary p emin q := by
  obtain ⟨n, k, -, -, hr⟩ := roundBinary_repr p hp emin q hq
  rw [hr]
  positivity

theorem roundF32_nonneg (q : ℚ) (hq : 0 ≤ q) : 0 ≤ roundF32 q :=
  roundBinary_nonneg 24 (by norm_num) _ q hq

theorem roundF64_nonneg (q : ℚ) (hq : 0 ≤ q) : 0 ≤ roundF64 q :=
  roundBinary_nonneg 53 (by norm_num) _ q hq

/-- A `float` is left as it is by a conversion to `float`. -/
theorem roundF32_roundF32 (q : ℚ) (hq : 0 ≤ q) : roundF32 (roundF32 q) = roundF32 q :=
  roundBinary_roundBinary 24 24 (-126) (-126) (by norm_num) le_rfl le_rfl q hq

/-- A `float` is left as it is by a conversion to `double`. -/
theorem roundF64_roundF32 (q : ℚ) (hq : 0 ≤ q) : roundF64 (roundF32 q) = roundF32 q :=
  roundBinary_roundBinary 24 53 (-126) (-1022) (by norm_num) (by norm_num) (by norm_num) q hq

/-! ## The two blends -/

/-- For sizes that are not negative and offsets inside `int`, every byte of
the pixel data `saveAsPPM` writes, in terms of the input pixel it is computed
from. -/
theorem ppmPixelBytes_cells (E : Engine) (w h : ℕ) (bg : Color4) (fb : List UChar)
    (h3 : 3 * w ≤ 2147483647)
    (hpos : 0 < h → 4 * w ≤ 2147483648 ∧ (h - 1) * w ≤ 2147483647)
    (hfb : fb.length = 4 * (w * h)) :
    ∃ ppm : List UChar, ppmPixelBytes E (w : ℤ) (h : ℤ) bg fb = some ppm
      ∧ ppm.length = 3 * (w * h)
      ∧ ∀ j i c, j < h → i < w → c < 3 →
          ppm[3 * (j * w + i) + c]?
            = some (sel3 (let p := pixelIn w h fb j i
                          ppmPixel bg p.1 p.2.1 p.2.2.1 p.2.2.2) c) := by
  obtain ⟨body, hbody, blen, cells⟩ := saveAsPPMBytes_cells E w h bg fb h3 hpos hfb
  refine ⟨body, ?_, blen, cells⟩
  rw [ppmPixelBytes, hbody, Option.map_some', List.append_assoc, List.drop_left,
    List.dropLast_concat]

theorem roundF64_uchar (c : UChar) : roundF64 (c.val : ℚ) = c.val :=
  roundF64_natCast c.val (lt_trans c.isLt (by norm_num))

/-- On an input pixel of alpha 255 the PPM blend is exact. -/
theorem ppmPixel_alpha255 (bg : Color4) (p0 p1 p2 : UChar) :
    ppmPixel bg p0 p1 p2 255 = (p0, p1, p2) := by
  have ha : roundF32 (roundF64 ((((255 : UChar).val : ℕ) : ℚ) / 255)) = 1 := by
    have hv : (255 : UChar).val = 255 := rfl
    have : ((((255 : UChar).val : ℕ) : ℚ) / 255) = 1 := by rw [hv]; norm_num
    rw [this, roundF64_one, roundF32_one]
  simp only [ppmPixel, ha, mul_one, sub_self, roundF64_zero, mul_zero, add_zero,
    roundF32_uchar, roundF64_uchar, toUChar_uchar]

/-- On an input pixel of alpha 0 the PPM blend writes the background. -/
theorem ppmPixel_alpha0 (bg : Color4) (p0 p1 p2 : UChar) :
    ppmPixel bg p0 p1 p2 0 = (bg.c0, bg.c1, bg.c2) := by
  have ha : roundF32 (roundF64 ((((0 : UChar).val : ℕ) : ℚ) / 255)) = 0 := by
    have hv : (0 : UChar).val = 0 := rfl
    have : ((((0 : UChar).val : ℕ) : ℚ) / 255) = 0 := by rw [hv]; norm_num
    rw [this, roundF64_zero, roundF32_zero]
  simp only [ppmPixel, ha, mul_zero, sub_zero, roundF32_zero, roundF64_one, mul_one,
    zero_add, roundF64_uchar, toUChar_uchar]

/-- On an input pixel of alpha 0 over a background of alpha 255 the buffer
blend writes the background. -/
theorem compositePixel_alpha0 (bg : Color4) (hbg : bg.c3 = 255) (p0 p1 p2 : UChar) :
    compositePixel bg p0 p1 p2 0 = (bg.c0, bg.c1, bg.c2, 255) := by
  have ha : roundF32 (roundF64 ((((0 : UChar).val : ℕ) : ℚ) / 255)) = 0 := by
    have hv : (0 : UChar).val = 0 := rfl
    have : ((((0 : UChar).val : ℕ) : ℚ) / 255) = 0 := by rw [hv]; norm_num
    rw [this, roundF64_zero, roundF32_zero]
  have hb : roundF32 (roundF64 ((((bg.c3).val : ℕ) : ℚ) / 255)) = 1 := by
    have hv : (255 : UChar).val = 255 := rfl
    have : ((((bg.c3).val : ℕ) : ℚ) / 255) = 1 := by rw [hbg, hv]; norm_num
    rw [this, roundF64_one, roundF32_one]
  have h255 : roundF32 255 = 255 := by
    simpa using roundF32_natCast 255 (by norm_num)
  have ht : toUChar 255 = 255 := by
    simpa using toUChar_uchar 255
  simp only [compositePixel, ha, hb, mul_zero, mul_one, sub_zero, roundF32_zero,
    roundF32_one, zero_add, roundF32_uchar, toUChar_uchar, h255, ht]

/-- The blend of one component over a background component 0: both loops
give the `float` product of the component and the pixel alpha. -/
theorem blend_channel_zero (p a abg oma omaf : ℚ) (hpa : 0 ≤ p * a) :
    toUChar (roundF64 (roundF32 (p * a) + roundF64 ((0 : ℚ) * oma)))
      = toUChar (roundF32 (roundF32 (p * a) + roundF32 (roundF32 ((0 : ℚ) * abg) * omaf))) := by
  simp only [zero_mul, roundF64_zero, roundF32_zero, add_zero]
  rw [roundF64_roundF32 _ hpa, roundF32_roundF32 _ hpa]

/-- Where the background component is 0 the two blends write the same
byte, whatever the pixel and the two alphas. -/
theorem blend_zero_background (bg : Color4) (p0 p1 p2 p3 : UChar) (c : ℕ) (hc : c < 3)
    (h0 : sel3 (bg.c0, bg.c1, bg.c2) c = 0) :
    sel3 (ppmPixel bg p0 p1 p2 p3) c = sel4 (compositePixel bg p0 p1 p2 p3) c := by
  have v0 : (((0 : UChar).val : ℕ) : ℚ) = 0 := by
    have hv : (0 : UChar).val = 0 := rfl
    rw [hv]
    norm_num
  have ha : 0 ≤ roundF32 (roundF64 ((p3.val : ℚ) / 255)) :=
    roundF32_nonneg _ (roundF64_nonneg _ (by positivity))
  have hpa : ∀ p : UChar, 0 ≤ (p.val : ℚ) * roundF32 (roundF64 ((p3.val : ℚ) / 255)) :=
    fun p => mul_nonneg (by positivity) ha
  interval_cases c
  · simp only [sel3, if_true] at h0
    simp only [sel3, sel4, if_true, ppmPixel, compositePixel, h0, v0]
    exact blend_channel_zero _ _ _ _ _ (hpa p0)
  · simp only [sel3, if_true, one_ne_zero, if_false] at h0
    simp only [sel3, sel4, if_true, one_ne_zero, if_false, ppmPixel, compositePixel, h0, v0]
    exact blend_channel_zero _ _ _ _ _ (hpa p1)
  · simp only [sel3, OfNat.ofNat_ne_zero, OfNat.ofNat_ne_one, if_false] at h0
    simp only [sel3, sel4, OfNat.ofNat_ne_zero, OfNat.ofNat_ne_one, if_false, ppmPixel,
      compositePixel, h0, v0]
    exact blend_channel_zero _ _ _ _ _ (hpa p2)

/-- C11 (amended): for an image whose byte count `4 * w * h` is a value of
`int` and a framebuffer of `w * h` RGBA pixels, both functions are defined,
and the byte `c` (R, G or B) `saveAsPPM` writes for a pixel is the byte `c`
`renderToBuffer` produces for it whenever the pixel has alpha 255, or the
background component `c` is 0 (over a black background: every pixel and
component, whatever the pixel alpha and the background alpha), or the pixel
has alpha 0 and the background alpha 255. -/
theorem blend_agrees (E : Engine) (w h : ℤ) (bg : Color4) (fb : List UChar)
    (j i out src c : ℕ) (hn : 4 * w * h ≤ INT_MAX) (hlen : (fb.length : ℤ) = 4 * w * h)
    (hj : (j : ℤ) < h) (hi : (i : ℤ) < w) (hc : c < 3)
    (hout : (out : ℤ) = j * w + i) (hsrc : (src : ℤ) = (h - 1 - j) * w + i)
    (hcase : fb[4 * src + 3]? = some 255
      ∨ sel3 (bg.c0, bg.c1, bg.c2) c = 0
      ∨ (fb[4 * src + 3]? = some 0 ∧ bg.c3 = 255)) :
    ∃ (ppm buf : List UChar) (x : UChar),
      ppmPixelBytes E w h bg fb = some ppm
      ∧ renderToBufferBytes E w h bg fb = some (some buf)
      ∧ ppm[3 * out + c]? = some x ∧ buf[4 * out + c]? = some x := by
  have hw0 : 0 ≤ w := by
    have : (0 : ℤ) ≤ i := Int.natCast_nonneg i
    omega
  have hh0 : 0 ≤ h := by
    have : (0 : ℤ) ≤ j := Int.natCast_nonneg j
    omega
  lift w to ℕ using hw0
  lift h to ℕ using hh0
  have hj : j < h := by exact_mod_cast hj
  have hi : i < w := by exact_mod_cast hi
  have hout : out = j * w + i := by exact_mod_cast hout
  have hsrc : src = (h - 1 - j) * w + i := by
    have e : (((h - 1 - j : ℕ)) : ℤ) = (h : ℤ) - 1 - j := by omega
    rw [← e] at hsrc
    exact_mod_cast hsrc
  subst hout hsrc
  have e4 : 4 * (w : ℤ) * (h : ℤ) = ((4 * (w * h) : ℕ) : ℤ) := by
    push_cast
    ring
  have hfb : fb.length = 4 * (w * h) := by
    rw [e4] at hlen
    exact_mod_cast hlen
  have hnn : 4 * (w * h) ≤ 2147483647 := by
    rw [e4] at hn
    simp only [INT_MAX] at hn
    omega
  have hwle : w ≤ w * h := Nat.le_mul_of_pos_right w (by omega)
  have hrow : (h - 1) * w ≤ w * h := by
    rw [Nat.mul_comm w h]
    exact Nat.mul_le_mul_right _ (by omega)
  obtain ⟨ppm, hppm, -, pcells⟩ := ppmPixelBytes_cells E w h bg fb (by omega)
    (fun _ => ⟨by omega, by omega⟩) hfb
  obtain ⟨buf, hbuf, -, bcells⟩ := renderToBufferBytes_cells E w h bg fb (by omega) hnn hfb
  have hp := pcells j i c hj hi hc
  have hb := bcells j i c hj hi (by omega)
  have ea : 4 * ((h - 1 - j) * w + i) + 3 = 4 * ((h - 1 - j) * w) + (4 * i + 3) := by ring
  rw [ea] at hcase
  refine ⟨ppm, buf, _, hppm, hbuf, hp, ?_⟩
  rw [hb]
  congr 1
  rcases hcase with h255 | hzero | ⟨h0, hbg⟩
  · have hg := getD_of_getElem_some _ _ _ h255
    simp only [pixelIn, hg, ppmPixel_alpha255, compositePixel_alpha255]
    interval_cases c <;> simp [sel3, sel4]
  · exact (blend_zero_background bg _ _ _ _ c hc hzero).symm
  · have hg := getD_of_getElem_some _ _ _ h0
    simp only [pixelIn, hg, ppmPixel_alpha0, compositePixel_alpha0 bg hbg]
    interval_cases c <;> simp [sel3, sel4]

theorem blend_agrees_witness :
    4 * 1 * 1 ≤ INT_MAX
      ∧ ((([1, 2, 3, 77] : List UChar).length : ℤ) = 4 * 1 * 1)
      ∧ sel3 ((⟨0, 0, 0, 0⟩ : Color4).c0, (⟨0, 0, 0, 0⟩ : Color4).c1,
          (⟨0, 0, 0, 0⟩ : Color4).c2) 0 = 0
      ∧ ∃ (ppm buf : List UChar) (x : UChar),
          ppmPixelBytes Engine.counting 1 1 ⟨0, 0, 0, 0⟩ [1, 2, 3, 77] = some ppm
          ∧ renderToBufferBytes Engine.counting 1 1 ⟨0, 0, 0, 0⟩ [1, 2, 3, 77]
              = some (some buf)
          ∧ ppm[3 * 0 + 0]? = some x ∧ buf[4 * 0 + 0]? = some x :=
  ⟨by decide, by rfl, by rfl,
    blend_agrees Engine.counting 1 1 ⟨0, 0, 0, 0⟩ [1, 2, 3, 77] 0 0 0 0 0 (by decide)
      (by rfl) (by norm_num) (by norm_num) (by norm_num) (by norm_num) (by norm_num)
      (Or.inr (Or.inl (by rfl)))⟩

/-! ## A pixel of alpha 128 on an equal-coloured background -/

theorem round_a64 : roundF64 (128 / 255) = 282578800148737 / 562949953421312 := by
  have h := roundBinary_eq 53 (-1022) (128 / 255) (-1) 4521260802379792 (by norm_num)
    (by norm_num) (by norm_num) (by norm_num) (by norm_num) (by norm_num)
  rw [roundF64, h]
  norm_num

theorem round_a32 : roundF32 (282578800148737 / 562949953421312) = 8421505 / 16777216 := by
  have h := roundBinary_eq 24 (-126) (282578800148737 / 562949953421312) (-1) 8421505 (by norm_num)
    (by norm_num) (by norm_num) (by norm_num) (by norm_num) (by norm_num)
  rw [roundF32, h]
  norm_num

theorem round_ra : roundF32 (10 * (8421505 / 16777216)) = 10526881 / 2097152 := by
  have h := roundBinary_eq 24 (-126) (10 * (8421505 / 16777216)) 2 10526881 (by norm_num)
    (by norm_num) (by norm_num) (by norm_num) (by norm_num) (by norm_num)
  rw [roundF32, h]
  norm_num

theorem round_om64 : roundF64 (1 - 8421505 / 16777216) = 8355711 / 16777216 := by
  have h := roundBinary_eq 53 (-1022) (1 - 8421505 / 16777216) (-2) 8971876369956864 (by norm_num)
    (by norm_num) (by norm_num) (by norm_num) (by norm_num) (by norm_num)
  rw [roundF64, h]
  norm_num

theorem round_bt : roundF64 (10 * (8355711 / 16777216)) = 41778555 / 8388608 := by
  have h := roundBinary_eq 53 (-1022) (10 * (8355711 / 16777216)) 2 5607422731223040 (by norm_num)
    (by norm_num) (by norm_num) (by norm_num) (by norm_num) (by norm_num)
  rw [roundF64, h]
  norm_num

theorem round_sm : roundF64 (10526881 / 2097152 + 41778555 / 8388608) = 83886079 / 8388608 := by
  have h := roundBinary_eq 53 (-1022) (10526881 / 2097152 + 41778555 / 8388608) 3 5629499467104256 (by norm_num)
    (by norm_num) (by norm_num) (by norm_num) (by norm_num) (by norm_num)
  rw [roundF64, h]
  norm_num

theorem round_om32 : roundF32 (1 - 8421505 / 16777216) = 8355711 / 16777216 := by
  have h := roundBinary_eq 24 (-126) (1 - 8421505 / 16777216) (-2) 16711422 (by norm_num)
    (by norm_num) (by norm_num) (by norm_num) (by norm_num) (by norm_num)
  rw [roundF32, h]
  norm_num

theorem round_t : roundF32 (10 * (8355711 / 16777216)) = 10444639 / 2097152 := by
  have h := roundBinary_eq 24 (-126) (10 * (8355711 / 16777216)) 2 10444639 (by norm_num)
    (by norm_num) (by norm_num) (by norm_num) (by norm_num) (by norm_num)
  rw [roundF32, h]
  norm_num

theorem round_s32 : roundF32 (10526881 / 2097152 + 10444639 / 2097152) = 10 := by
  have h := roundBinary_eq 24 (-126) (10526881 / 2097152 + 10444639 / 2097152) 3 10485760 (by norm_num)
    (by norm_num) (by norm_num) (by norm_num) (by norm_num) (by norm_num)
  rw [roundF32, h]
  norm_num

theorem toUChar_eq (q : ℚ) (n : ℕ) (h1 : (n : ℚ) ≤ q) (h2 : q < (n : ℚ) + 1) :
    toUChar q = Fin.ofNat n := by
  have h0 : (0 : ℚ) ≤ q := le_trans (Nat.cast_nonneg n) h1
  have : ⌊q⌋₊ = n := (Nat.floor_eq_iff h0).mpr ⟨h1, h2⟩
  rw [toUChar, this]

/-- The red byte `saveAsPPM` writes for a pixel of red 10 and alpha 128 over
a background of red 10 and alpha 255. -/
theorem ppmPixel_half (g b : UChar) :
    (ppmPixel ⟨10, 20, 30, 255⟩ 10 g b 128).1 = 9 := by
  have v10 : (((10 : UChar).val : ℕ) : ℚ) = 10 := by
    have hv : (10 : UChar).val = 10 := rfl
    rw [hv]; norm_num
  have v128 : (((128 : UChar).val : ℕ) : ℚ) = 128 := by
    have hv : (128 : UChar).val = 128 := rfl
    rw [hv]; norm_num
  simp only [ppmPixel, v10, v128, round_a64, round_a32, round_ra, round_om64, round_bt,
    round_sm]
  rw [toUChar_eq _ 9 (by norm_num) (by norm_num)]
  rfl

/-- The red byte `renderToBuffer` writes for the same pixel and background. -/
theorem compositePixel_half (g b : UChar) :
    (compositePixel ⟨10, 20, 30, 255⟩ 10 g b 128).1 = 10 := by
  have v10 : (((10 : UChar).val : ℕ) : ℚ) = 10 := by
    have hv : (10 : UChar).val = 10 := rfl
    rw [hv]; norm_num
  have v128 : (((128 : UChar).val : ℕ) : ℚ) = 128 := by
    have hv : (128 : UChar).val = 128 := rfl
    rw [hv]; norm_num
  have vbg : ((((255 : UChar).val : ℕ) : ℚ) / 255) = 1 := by
    have hv : (255 : UChar).val = 255 := rfl
    rw [hv]; norm_num
  have r10 : roundF32 10 = 10 := by
    simpa using roundF32_natCast 10 (by norm_num)
  simp only [compositePixel, v10, v128, vbg, round_a64, round_a32, round_ra, roundF64_one,
    roundF32_one, mul_one, r10, round_om32, round_t, round_s32]
  rw [toUChar_eq _ 10 (by norm_num) (by norm_num)]
  rfl

/-- C11 (counterexample): for a 1 by 1 framebuffer holding a pixel of alpha 0
and the background (255,0,0,0), `saveAsPPM` writes red 255 and
`renderToBuffer` red 0; and for a pixel (10,11,12,128) over the background
(10,20,30,255), `saveAsPPM` writes red 9 and `renderToBuffer` red 10. -/
theorem blend_differs :
    ((∃ ppm, ppmPixelBytes Engine.counting 1 1 ⟨255, 0, 0, 0⟩ [0, 0, 0, 0] = some ppm
          ∧ ppm[0]? = some 255)
      ∧ (∃ buf, renderToBufferBytes Engine.counting 1 1 ⟨255, 0, 0, 0⟩ [0, 0, 0, 0]
            = some (some buf) ∧ buf[0]? = some 0))
    ∧ ((∃ ppm, ppmPixelBytes Engine.counting 1 1 ⟨10, 20, 30, 255⟩ [10, 11, 12, 128] = some ppm
          ∧ ppm[0]? = some 9)
      ∧ (∃ buf, renderToBufferBytes Engine.counting 1 1 ⟨10, 20, 30, 255⟩ [10, 11, 12, 128]
            = some (some buf) ∧ buf[0]? = some 10)) := by
  have hzero : (compositePixel ⟨255, 0, 0, 0⟩ 0 0 0 0).1 = 0 := by
    have v0 : (((0 : UChar).val : ℕ) : ℚ) = 0 := by
      have hv : (0 : UChar).val = 0 := rfl
      rw [hv]; norm_num
    simp only [compositePixel, v0, zero_div, roundF64_zero, roundF32_zero, mul_zero,
      zero_mul, add_zero]
    rw [toUChar_eq _ 0 (by norm_num) (by norm_num)]
    rfl
  obtain ⟨ppmA, hpA, -, pA⟩ := ppmPixelBytes_cells Engine.counting 1 1 ⟨255, 0, 0, 0⟩
    [0, 0, 0, 0] (by norm_num) (fun _ => by norm_num) (by rfl)
  obtain ⟨bufA, hbA, -, bA⟩ := renderToBufferBytes_cells Engine.counting 1 1 ⟨255, 0, 0, 0⟩
    [0, 0, 0, 0] (by norm_num) (by norm_num) (by rfl)
  obtain ⟨ppmB, hpB, -, pB⟩ := ppmPixelBytes_cells Engine.counting 1 1 ⟨10, 20, 30, 255⟩
    [10, 11, 12, 128] (by norm_num) (fun _ => by norm_num) (by rfl)
  obtain ⟨bufB, hbB, -, bB⟩ := renderToBufferBytes_cells Engine.counting 1 1
    ⟨10, 20, 30, 255⟩ [10, 11, 12, 128] (by norm_num) (by norm_num) (by rfl)
  have pA := pA 0 0 0 (by norm_num) (by norm_num) (by norm_num)
  have bA := bA 0 0 0 (by norm_num) (by norm_num) (by norm_num)
  have pB := pB 0 0 0 (by norm_num) (by norm_num) (by norm_num)
  have bB := bB 0 0 0 (by norm_num) (by norm_num) (by norm_num)
  have eA : pixelIn 1 1 [0, 0, 0, 0] 0 0 = ((0 : UChar), (0 : UChar), (0 : UChar), (0 : UChar)) :=
    rfl
  have eB : pixelIn 1 1 [10, 11, 12, 128] 0 0
      = ((10 : UChar), (11 : UChar), (12 : UChar), (128 : UChar)) := rfl
  simp only [eA, eB, sel3, sel4, if_true] at pA bA pB bB
  simp only [Nat.cast_one] at hpA hbA hpB hbB
  refine ⟨⟨⟨ppmA, hpA, ?_⟩, ⟨bufA, hbA, ?_⟩⟩, ⟨ppmB, hpB, ?_⟩, ⟨bufB, hbB, ?_⟩⟩
  · rw [pA, ppmPixel_alpha0]
  · rw [bA, hzero]
  · rw [pB, ppmPixel_half]
  · rw [bB, compositePixel_half]

/-! ## The isosurface material -/

/-- C12 (counterexample): a renderer whose material was created by a call
with specular 1/2 rebuilds the scene graph for another volume with specular
0, and the material still has Ks = (1/2, 1/2, 1/2), not (0, 0, 0). -/
theorem material_keeps_first_specular :
    World.isoBuilt.self.lastVolumeID ≠ Volume.other.ID
      ∧ paramVec3f
          (Renderer.setIsosurface Engine.counting Volume.other [F32.fin 1] (F32.fin 0)
            World.isoBuilt).calls
          (Renderer.setIsosurface Engine.counting Volume.other [F32.fin 1] (F32.fin 0)
            World.isoBuilt).self.oMaterial "Ks"
        = some (F32.fin (1 / 2), F32.fin (1 / 2), F32.fin (1 / 2))
      ∧ paramVec3f
          (Renderer.setIsosurface Engine.counting Volume.other [F32.fin 1] (F32.fin 0)
            World.isoBuilt).calls
          (Renderer.setIsosurface Engine.counting Volume.other [F32.fin 1] (F32.fin 0)
            World.isoBuilt).self.oMaterial "Ks"
        ≠ some (F32.fin 0, F32.fin 0, F32.fin 0) := by
  have h : paramVec3f
      (Renderer.setIsosurface Engine.counting Volume.other [F32.fin 1] (F32.fin 0)
        World.isoBuilt).calls
      (Renderer.setIsosurface Engine.counting Volume.other [F32.fin 1] (F32.fin 0)
        World.isoBuilt).self.oMaterial "Ks"
      = some (F32.fin (1 / 2), F32.fin (1 / 2), F32.fin (1 / 2)) := by rfl
  refine ⟨by decide, h, ?_⟩
  rw [h]
  intro hne
  have h2 : (1 / 2 : ℚ) = 0 := by
    have := (Prod.mk.inj (Option.some.inj hne)).1
    exact F32.fin.inj this
  norm_num at h2

/-- C12 (amended): a call `setIsosurface(v, isoValues, s)` that rebuilds the
scene graph while the renderer has no material yet creates the material with
Ks = (s,s,s) and Kd = (1-s,1-s,1-s) and attaches it to the isosurface; when a
material already exists the call keeps it, leaves its Ks and Kd as they were
and attaches it to the new isosurface.  The two-argument overload is the call
with the `float` nearest to 0.1. -/
theorem material_from_first_specular (E : Engine) (v : Volume) (isoValues : List F32)
    (specular : F32) (s : World)
    (hrebuild : s.self.lastVolumeID ≠ v.ID ∨ s.self.lastRenderType ≠ "isosurface"
      ∨ vecEq s.self.lastIsoValues isoValues = false) :
    (s.self.oMaterial = NULL →
        paramVec3f (Renderer.setIsosurface E v isoValues specular s).calls
            (Renderer.setIsosurface E v isoValues specular s).self.oMaterial "Ks"
          = some (specular, specular, specular)
        ∧ paramVec3f (Renderer.setIsosurface E v isoValues specular s).calls
            (Renderer.setIsosurface E v isoValues specular s).self.oMaterial "Kd"
          = some (F32.sub (F32.fin 1) specular, F32.sub (F32.fin 1) specular,
              F32.sub (F32.fin 1) specular))
      ∧ (s.self.oMaterial ≠ NULL →
        (Renderer.setIsosurface E v isoValues specular s).self.oMaterial = s.self.oMaterial
        ∧ paramVec3f (Renderer.setIsosurface E v isoValues specular s).calls
            s.self.oMaterial "Ks" = paramVec3f s.calls s.self.oMaterial "Ks"
        ∧ paramVec3f (Renderer.setIsosurface E v isoValues specular s).calls
            s.self.oMaterial "Kd" = paramVec3f s.calls s.self.oMaterial "Kd")
      ∧ OspCall.setObject (Renderer.setIsosurface E v isoValues specular s).self.oSurface
          "material" (Renderer.setIsosurface E v isoValues specular s).self.oMaterial
          ∈ (Renderer.setIsosurface E v isoValues specular s).calls
      ∧ Renderer.setIsosurfaceDefault E v isoValues s
          = Renderer.setIsosurface E v isoValues (F32.ofDouble (1 / 10)) s := by
  have hc : ¬ (s.self.lastVolumeID = v.ID ∧ s.self.lastRenderType = "isosurface"
      ∧ vecEq s.self.lastIsoValues isoValues = true) := by
    rintro ⟨h1, h2, h3⟩
    rcases hrebuild with h | h | h
    · exact h h1
    · exact h h2
    · rw [h3] at h
      exact Bool.noConfusion h
  refine ⟨?_, ?_, ?_, rfl⟩
  · intro hm
    unfold Renderer.setIsosurface
    rw [if_neg hc]
    by_cases hw : s.self.oWorld = NULL <;> by_cases hl : s.self.lights = []
      <;> by_cases hs : s.self.oSurface = NULL
      <;> simp [hw, hl, hm, hs, paramVec3f, Renderer.buildSceneGraph,
        Renderer.releaseSceneGraph, Renderer.addLight, World.upd, World.osp, World.ospNew]
  · intro hm
    unfold Renderer.setIsosurface
    rw [if_neg hc]
    by_cases hw : s.self.oWorld = NULL <;> by_cases hl : s.self.lights = []
      <;> by_cases hs : s.self.oSurface = NULL
      <;> simp [hw, hl, hm, hs, paramVec3f, Renderer.buildSceneGraph,
        Renderer.releaseSceneGraph, Renderer.addLight, World.upd, World.osp, World.ospNew]
  · unfold Renderer.setIsosurface
    rw [if_neg hc]
    by_cases hw : s.self.oWorld = NULL <;> by_cases hl : s.self.lights = []
      <;> by_cases hm : s.self.oMaterial = NULL <;> by_cases hs : s.self.oSurface = NULL
      <;> simp [hw, hl, hm, hs, Renderer.buildSceneGraph,
        Renderer.releaseSceneGraph, Renderer.addLight, World.upd, World.osp, World.ospNew]

theorem material_from_first_specular_witness :
    (World.fresh.self.lastVolumeID ≠ Volume.sample.ID
        ∨ World.fresh.self.lastRenderType ≠ "isosurface"
        ∨ vecEq World.fresh.self.lastIsoValues [F32.fin 1] = false)
      ∧ World.fresh.self.oMaterial = NULL
      ∧ paramVec3f
          (Renderer.setIsosurface Engine.counting Volume.sample [F32.fin 1] (F32.fin (1 / 2))
            World.fresh).calls
          (Renderer.setIsosurface Engine.counting Volume.sample [F32.fin 1] (F32.fin (1 / 2))
            World.fresh).self.oMaterial "Ks"
        = some (F32.fin (1 / 2), F32.fin (1 / 2), F32.fin (1 / 2)) := by
  have hr : World.fresh.self.lastVolumeID ≠ Volume.sample.ID
      ∨ World.fresh.self.lastRenderType ≠ "isosurface"
      ∨ vecEq World.fresh.self.lastIsoValues [F32.fin 1] = false := Or.inl (by decide)
  have hm : World.fresh.self.oMaterial = NULL := by rfl
  exact ⟨hr, hm, ((material_from_first_specular Engine.counting Volume.sample [F32.fin 1]
    (F32.fin (1 / 2)) World.fresh hr).1 hm).1⟩

/-! ## The data filename and `glob` -/

/-- What the `"filename"` block stores when `glob` reports none of its three
errors: the configured string itself when `glob` returned exactly one path,
and otherwise all returned paths, in order, in `globbedFilenames`. -/
theorem readFilename_glob (env : ConfigEnv) (json : JsonValue) (st : ConfigState)
    (fname : String) (hmem : json.member "filename" = some (JsonValue.string fname))
    (h1 : (env.glob fname).error ≠ GLOB_NOSPACE) (h2 : (env.glob fname).error ≠ GLOB_ABORTED)
    (h3 : (env.glob fname).error ≠ GLOB_NOMATCH) :
    Configuration.readFilename env json st
      = some (if (env.glob fname).gl_pathv.length = 1 then
                ({ st.1 with dataFilename := fname }, st.2)
              else
                ({ st.1 with globbedFilenames :=
                    st.1.globbedFilenames ++ (env.glob fname).gl_pathv }, st.2)) := by
  rcases hasMember_cases json "filename" with h0 | ⟨h0, hn⟩ | ⟨h0, v, hv⟩
  · cases json <;> simp [JsonValue.HasMember, JsonValue.member] at h0 hmem
  · rw [hn] at hmem
    exact Option.noConfusion hmem
  · simp only [Configuration.readFilename, h0, hmem, JsonValue.GetString,
      Option.bind_eq_bind, Option.some_bind, Bool.not_true, Bool.false_eq_true, if_false,
      if_neg h1, if_neg h2, if_neg h3]
    split_ifs <;> rfl

/-- C13 (the code at the failing input): with `"filename": "data*.raw"` and
a `glob` that succeeds with the single path `data1.raw`, the constructor
completes with `dataFilename` equal to the pattern `data*.raw`, not to the
path, and with `globbedFilenames` empty. -/
theorem glob_single_match_keeps_pattern :
    (ConfigEnv.oneMatch.glob "data*.raw").error = 0
      ∧ (ConfigEnv.oneMatch.glob "data*.raw").gl_pathv = ["data1.raw"]
      ∧ ∃ c cerr, Configuration.new ConfigEnv.oneMatch Configuration.blank "config.json"
            JsonValue.globDoc = some (c, cerr)
          ∧ c.dataFilename = "data*.raw" ∧ c.dataFilename ≠ "data1.raw"
          ∧ c.globbedFilenames = [] :=
  ⟨rfl, rfl, _, _, rfl, rfl, by decide, rfl⟩

/-! ## The scene-graph handles -/

/-- A call of `setVolume` keeps the handles all NULL or all non-NULL. -/
theorem setVolume_handles (E : Engine) (halloc : ∀ n, E.alloc n ≠ NULL) (v : Volume)
    (s : World)
    (h : (s.self.oModel = NULL ∧ s.self.oInstance = NULL ∧ s.self.oWorld = NULL)
      ∨ (s.self.oModel ≠ NULL ∧ s.self.oInstance ≠ NULL ∧ s.self.oWorld ≠ NULL)) :
    ((Renderer.setVolume E v s).self.oModel = NULL
        ∧ (Renderer.setVolume E v s).self.oInstance = NULL
        ∧ (Renderer.setVolume E v s).self.oWorld = NULL)
      ∨ ((Renderer.setVolume E v s).self.oModel ≠ NULL
        ∧ (Renderer.setVolume E v s).self.oInstance ≠ NULL
        ∧ (Renderer.setVolume E v s).self.oWorld ≠ NULL) := by
  unfold Renderer.setVolume
  by_cases hg : s.self.lastVolumeID = v.ID ∧ s.self.lastRenderType = "volume"
  · rw [if_pos hg]
    exact h
  · rw [if_neg hg]
    right
    by_cases hw : s.self.oWorld = NULL <;>
      simp [hw, Renderer.buildSceneGraph, Renderer.releaseSceneGraph, World.upd, World.osp,
        World.ospNew, halloc]

/-- A call of `setIsosurface` keeps the handles all NULL or all non-NULL. -/
theorem setIsosurface_handles (E : Engine) (halloc : ∀ n, E.alloc n ≠ NULL) (v : Volume)
    (isoValues : List F32) (specular : F32) (s : World)
    (h : (s.self.oModel = NULL ∧ s.self.oInstance = NULL ∧ s.self.oWorld = NULL)
      ∨ (s.self.oModel ≠ NULL ∧ s.self.oInstance ≠ NULL ∧ s.self.oWorld ≠ NULL)) :
    ((Renderer.setIsosurface E v isoValues specular s).self.oModel = NULL
        ∧ (Renderer.setIsosurface E v isoValues specular s).self.oInstance = NULL
        ∧ (Renderer.setIsosurface E v isoValues specular s).self.oWorld = NULL)
      ∨ ((Renderer.setIsosurface E v isoValues specular s).self.oModel ≠ NULL
        ∧ (Renderer.setIsosurface E v isoValues specular s).self.oInstance ≠ NULL
        ∧ (Renderer.setIsosurface E v isoValues specular s).self.oWorld ≠ NULL) := by
  unfold Renderer.setIsosurface
  by_cases hg : s.self.lastVolumeID = v.ID ∧ s.self.lastRenderType = "isosurface"
      ∧ vecEq s.self.lastIsoValues isoValues = true
  · rw [if_pos hg]
    exact h
  · rw [if_neg hg]
    right
    by_cases hw : s.self.oWorld = NULL <;> by_cases hl : s.self.lights = []
      <;> by_cases hm : s.self.oMaterial = NULL <;> by_cases hs : s.self.oSurface = NULL
      <;> simp [hw, hl, hm, hs, Renderer.buildSceneGraph, Renderer.releaseSceneGraph,
        Renderer.addLight, World.upd, World.osp, World.ospNew, halloc]

theorem setBackgroundColorVec_self (bgColor : List UChar) (s s' : World)
    (h : Renderer.setBackgroundColorVec bgColor s = some s') :
    s'.self.oModel = s.self.oModel ∧ s'.self.oInstance = s.self.oInstance
      ∧ s'.self.oWorld = s.self.oWorld := by
  have key : ∃ r g b a, s' = Renderer.setBackgroundColor r g b a s := by
    rcases bgColor with _ | ⟨r, _ | ⟨g, _ | ⟨b, _ | ⟨a, rest⟩⟩⟩⟩
    · exact ⟨0, 0, 0, 0, (Option.some.inj h).symm⟩
    · exact ⟨0, 0, 0, 0, (Option.some.inj h).symm⟩
    · exact ⟨0, 0, 0, 0, (Option.some.inj h).symm⟩
    · exact ⟨r, g, b, 255, (Option.some.inj h).symm⟩
    · have hlen : ¬ (rest.length + 1 + 1 + 1 + 1 < 3) := by omega
      simp [Renderer.setBackgroundColorVec, hlen] at h
      exact ⟨r, g, b, a, h.symm⟩
  obtain ⟨r, g, b, a, rfl⟩ := key
  simp [Renderer.setBackgroundColor, World.upd, World.osp]

/-- The invariant along every reachable state. -/
theorem reachable_handles (E : Engine) (halloc : ∀ n, E.alloc n ≠ NULL) (s : World)
    (hr : Renderer.Reachable E s) :
    (s.self.oModel = NULL ∧ s.self.oInstance = NULL ∧ s.self.oWorld = NULL)
      ∨ (s.self.oModel ≠ NULL ∧ s.self.oInstance ≠ NULL ∧ s.self.oWorld ≠ NULL) := by
  induction hr with
  | construct mem =>
    left
    simp [Renderer.new, Renderer.setBackgroundColor, World.upd, World.osp, World.ospNew]
  | setVolume v s _ ih => exact setVolume_handles E halloc v s ih
  | setIsosurface v isoValues specular s _ ih =>
    exact setIsosurface_handles E halloc v isoValues specular s ih
  | setIsosurfaceDefault v isoValues s _ ih =>
    exact setIsosurface_handles E halloc v isoValues _ s ih
  | setCamera c s _ ih =>
    unfold Renderer.setCamera
    split_ifs <;> simpa [World.upd, World.osp] using ih
  | setSamples spp s _ ih => simpa [Renderer.setSamples, World.upd, World.osp] using ih
  | setBackgroundColor r g b a s _ ih =>
    simpa [Renderer.setBackgroundColor, World.upd, World.osp] using ih
  | setBackgroundColorVec bgColor s s' _ hs ih =>
    obtain ⟨h1, h2, h3⟩ := setBackgroundColorVec_self bgColor s s' hs
    rw [h1, h2, h3]
    exact ih
  | addLight s _ ih =>
    unfold Renderer.addLight
    split_ifs <;> simpa [World.upd, World.osp, World.ospNew] using ih

/-- When the null check passes, `render` ends with the frame render on the
renderer's framebuffer, renderer, camera and world. -/
theorem render_last_call (E : Engine) (s : World) (hm : s.self.oModel ≠ NULL)
    (hc : s.self.oCamera ≠ NULL) :
    ∃ fb, (Renderer.render E s).calls.getLast?
      = some (OspCall.renderFrame fb s.self.oRenderer s.self.oCamera s.self.oWorld) := by
  unfold Renderer.render
  by_cases hl : s.self.lights.length = 1 <;>
    simp [hm, hc, hl, World.upd, World.osp, World.ospNew, World.print]

/-- C14: in every state reachable from the constructor by `setVolume`,
`setIsosurface`, `setCamera`, `setSamples`, `setBackgroundColor` and
`addLight` calls, with the engine's constructors returning non-null handles,
`oModel`, `oInstance` and `oWorld` are all NULL or all non-NULL; and whenever
`render()` passes its null check, the call it ends with is the frame render,
and the world handle it hands over is non-NULL. -/
theorem handles_all_or_none (E : Engine) (halloc : ∀ n, E.alloc n ≠ NULL) (s : World)
    (hr : Renderer.Reachable E s) :
    ((s.self.oModel = NULL ∧ s.self.oInstance = NULL ∧ s.self.oWorld = NULL)
        ∨ (s.self.oModel ≠ NULL ∧ s.self.oInstance ≠ NULL ∧ s.self.oWorld ≠ NULL))
      ∧ (s.self.oModel ≠ NULL → s.self.oCamera ≠ NULL →
          ∃ fb world, (Renderer.render E s).calls.getLast?
              = some (OspCall.renderFrame fb s.self.oRenderer s.self.oCamera world)
            ∧ world = s.self.oWorld ∧ world ≠ NULL) := by
  have hinv := reachable_handles E halloc s hr
  refine ⟨hinv, ?_⟩
  intro hm hc
  obtain ⟨fb, hfb⟩ := render_last_call E s hm hc
  refine ⟨fb, s.self.oWorld, hfb, rfl, ?_⟩
  rcases hinv with ⟨h0, -, -⟩ | ⟨-, -, hw⟩
  · exact absurd h0 hm
  · exact hw

theorem handles_all_or_none_witness :
    (∀ n, Engine.counting.alloc n ≠ NULL)
      ∧ Renderer.Reachable Engine.counting World.ready
      ∧ World.ready.self.oModel ≠ NULL ∧ World.ready.self.oCamera ≠ NULL
      ∧ ∃ fb world, (Renderer.render Engine.counting World.ready).calls.getLast?
            = some (OspCall.renderFrame fb World.ready.self.oRenderer
                World.ready.self.oCamera world)
          ∧ world = World.ready.self.oWorld ∧ world ≠ NULL := by
  have ha : ∀ n, Engine.counting.alloc n ≠ NULL := fun n => Nat.succ_ne_zero n
  have hr : Renderer.Reachable Engine.counting World.ready :=
    Renderer.Reachable.setCamera _ _
      (Renderer.Reachable.setVolume _ _ (Renderer.Reachable.construct World.blank))
  have hm : World.ready.self.oModel ≠ NULL := by decide
  have hc : World.ready.self.oCamera ≠ NULL := by decide
  exact ⟨ha, hr, hm, hc, (handles_all_or_none Engine.counting ha World.ready hr).2 hm hc⟩

end pbnj
